import Mathlib

/-!
# Verification of `block.go` (package `block`)

A shallow embedding of `ParseSampleBlock` and `byteArray2StrArray`.

* Go slices keep the difference between the nil slice and an empty slice.
* Go strings are byte sequences.
* A call either returns its two results or stops with a run-time panic
  (nil dereference, index out of range); the panic is the outcome `fault`.
* The decoders of `protoutil` and the conversion `AsTime` are not part of the
  package: they are the fields of `Library`, and every theorem holds for every
  `Library`.
-/

namespace FabricBlock

/-! ## Go values -/

/-- A Go `byte`. -/
abbrev Byte := Fin 256

/-- A Go slice: the nil slice, or a slice holding elements (capacity is not observable
in this package and is left out). -/
inductive Slice (α : Type) where
  | nil : Slice α
  | mk (elems : List α) : Slice α
deriving DecidableEq, Repr

/-- The elements of a slice, in order; what `range` iterates over. -/
def Slice.toList {α : Type} : Slice α → List α
  | .nil => []
  | .mk elems => elems

/-- Go `len(s)`. -/
def Slice.len {α : Type} (s : Slice α) : Nat := s.toList.length

/-- Go `s == nil`. -/
def Slice.isNil {α : Type} : Slice α → Bool
  | .nil => true
  | .mk _ => false

/-- Go `make([]T, 0, n)`: a slice that is empty and not nil. -/
def make {α : Type} (_n : Nat) : Slice α := .mk []

/-- Go `append(s, x)`. -/
def append {α : Type} (s : Slice α) (x : α) : Slice α := .mk (s.toList ++ [x])

/-- Go `[]byte`. -/
abbrev Bytes := Slice Byte

/-- A Go `string`: an immutable sequence of bytes, of any content. -/
structure GoString where
  bytes : List Byte
deriving DecidableEq, Repr

/-- Go `string(v)` for `v []byte`: the same bytes, no validation. -/
def GoString.ofBytes (v : Bytes) : GoString := ⟨v.toList⟩

/-- Go `map[string][]byte`, nil or a list of entries. -/
abbrev GoMap := Option (List (GoString × Bytes))

/-- Go `time.Time`, as seconds and nanoseconds since January 1 of year 1, UTC. -/
structure Time where
  sec : Int
  nsec : Nat
deriving DecidableEq, Repr

/-- The zero value `time.Time` of Go. -/
def Time.zero : Time := ⟨0, 0⟩

/-! ## Errors -/

/-- An error value produced inside `protoutil`. -/
structure DecodeError where
  msg : String
deriving DecidableEq, Repr

/-- The error values `ParseSampleBlock` can return. -/
inductive GoError where
  /-- `err` handed back as the decoder returned it -/
  | decoder (err : DecodeError) : GoError
  /-- `errors.New(text)` -/
  | errorsNew (text : String) : GoError
  /-- `fmt.Errorf(label + ": %w", err)` -/
  | errorf (label : String) (err : GoError) : GoError
deriving DecidableEq, Repr

/-- Go `err.Error()`. -/
def GoError.Error : GoError → String
  | .decoder err => err.msg
  | .errorsNew text => text
  | .errorf label err => label ++ ": " ++ err.Error

/-- Go `errors.Unwrap(err)`. What it gives on an error of a decoder is decided inside
`protoutil`, not in this package: it is the argument `unwrapDecoder`. -/
def GoError.Unwrap (unwrapDecoder : DecodeError → Option DecodeError) : GoError → Option GoError
  | .decoder err => (unwrapDecoder err).map .decoder
  | .errorsNew _ => none
  | .errorf _ err => some err

/-! ## Messages of `fabric-protos-go-apiv2` (the fields this package reads) -/

structure BlockHeader where
  Number : Nat
  PreviousHash : Bytes
  DataHash : Bytes
deriving DecidableEq, Repr

structure BlockData where
  Data : Slice Bytes
deriving DecidableEq, Repr

structure BlockMetadata where
  Metadata : Slice Bytes
deriving DecidableEq, Repr

/-- The message `common.Block`; its three fields are pointers and may be nil. -/
structure Block where
  Header : Option BlockHeader
  Data : Option BlockData
  Metadata : Option BlockMetadata
deriving DecidableEq, Repr

structure Envelope where
  Payload : Bytes
deriving DecidableEq, Repr

structure Header where
  ChannelHeader : Bytes
  SignatureHeader : Bytes
deriving DecidableEq, Repr

structure Payload where
  Header : Option Header
  Data : Bytes
deriving DecidableEq, Repr

structure SignatureHeader where
  Creator : Bytes
deriving DecidableEq, Repr

structure SerializedIdentity where
  Mspid : GoString
  IdBytes : Bytes
deriving DecidableEq, Repr

structure Timestamp where
  Seconds : Int
  Nanos : Int
deriving DecidableEq, Repr

structure ChannelHeader where
  Type_ : Int
  Timestamp : Option Timestamp
  ChannelId : GoString
  TxId : GoString
deriving DecidableEq, Repr

structure TransactionAction where
  Header : Bytes
  Payload : Bytes
deriving DecidableEq, Repr

structure Transaction where
  Actions : Slice TransactionAction
deriving DecidableEq, Repr

structure ChaincodeActionPayload where
  ChaincodeProposalPayload : Bytes
deriving DecidableEq, Repr

structure Response where
  Status : Int
  Message : GoString
  Payload : Bytes
deriving DecidableEq, Repr

structure ChaincodeAction where
  Events : Bytes
  Response : Option Response
deriving DecidableEq, Repr

structure ChaincodeEvent where
  EventName : GoString
  Payload : Bytes
deriving DecidableEq, Repr

structure ChaincodeProposalPayload where
  Input : Bytes
  TransientMap : GoMap
deriving DecidableEq, Repr

structure ChaincodeID where
  Name : GoString
  Version : GoString
deriving DecidableEq, Repr

structure ChaincodeInput where
  Args : Slice Bytes
  IsInit : Bool
deriving DecidableEq, Repr

structure ChaincodeSpec where
  Type_ : Int
  ChaincodeId : Option ChaincodeID
  Input : Option ChaincodeInput
deriving DecidableEq, Repr

structure ChaincodeInvocationSpec where
  ChaincodeSpec : Option ChaincodeSpec
deriving DecidableEq, Repr

/-- The index `common.BlockMetadataIndex_TRANSACTIONS_FILTER`. -/
def BlockMetadataIndex_TRANSACTIONS_FILTER : Nat := 2

/-! ### Generated getters (safe on a nil receiver) -/

/-- Go `block.GetMetadata().GetMetadata()`. -/
def Block.GetMetadata (block : Block) : Slice Bytes :=
  match block.Metadata with
  | none => .nil
  | some m => m.Metadata

/-- Go `block.GetData().GetData()`. -/
def Block.GetData (block : Block) : Slice Bytes :=
  match block.Data with
  | none => .nil
  | some data => data.Data

/-- Go `spec.GetType()`. -/
def ChaincodeSpec.GetType : Option ChaincodeSpec → Int
  | none => 0
  | some spec => spec.Type_

/-- Go `spec.GetInput()`. -/
def ChaincodeSpec.GetInput : Option ChaincodeSpec → Option ChaincodeInput
  | none => none
  | some spec => spec.Input

/-- Go `input.GetArgs()`. -/
def ChaincodeInput.GetArgs : Option ChaincodeInput → Slice Bytes
  | none => .nil
  | some input => input.Args

/-- Go `input.GetIsInit()`. -/
def ChaincodeInput.GetIsInit : Option ChaincodeInput → Bool
  | none => false
  | some input => input.IsInit

/-- Go `id.GetName()`. -/
def ChaincodeID.GetName : Option ChaincodeID → GoString
  | none => ⟨[]⟩
  | some id => id.Name

/-- Go `id.GetVersion()`. -/
def ChaincodeID.GetVersion : Option ChaincodeID → GoString
  | none => ⟨[]⟩
  | some id => id.Version

/-! ## The functions of other packages -/

/-- The functions `ParseSampleBlock` calls in `protoutil`, and `AsTime` of
`timestamppb`. They are inputs of the embedding. A decoder returns an error or a message
that is not nil, and the actions of a decoded transaction are not nil. -/
structure Library where
  UnmarshalEnvelope : Bytes → Except DecodeError Envelope
  UnmarshalPayload : Bytes → Except DecodeError Payload
  UnmarshalSignatureHeader : Bytes → Except DecodeError SignatureHeader
  UnmarshalSerializedIdentity : Bytes → Except DecodeError SerializedIdentity
  UnmarshalChannelHeader : Bytes → Except DecodeError ChannelHeader
  UnmarshalTransaction : Bytes → Except DecodeError Transaction
  GetPayloads : TransactionAction → Except DecodeError (ChaincodeActionPayload × ChaincodeAction)
  UnmarshalChaincodeEvents : Bytes → Except DecodeError ChaincodeEvent
  UnmarshalChaincodeProposalPayload : Bytes → Except DecodeError ChaincodeProposalPayload
  UnmarshalChaincodeInvocationSpec : Bytes → Except DecodeError ChaincodeInvocationSpec
  AsTime : Option Timestamp → Time

/-- The table `hextable` of `encoding/hex`: the text "0123456789abcdef". -/
def hextable : List Byte :=
  [48, 49, 50, 51, 52, 53, 54, 55, 56, 57, 97, 98, 99, 100, 101, 102]

/-- Modelled from the spec: `hex.EncodeToString` of the Go library `encoding/hex` is not
under src/; the spec calls the two hashes "fixed-encoding text (hex) of raw hash bytes".
Each byte `v` gives the two characters `hextable[v>>4]` and `hextable[v&0x0f]`. -/
def EncodeToString (src : Bytes) : GoString :=
  ⟨src.toList.flatMap fun v => [hextable.getD (v.val / 16) 0, hextable.getD (v.val % 16) 0]⟩

/-- Modelled from the spec: the value of one hexadecimal character, as `fromHexChar` of
`encoding/hex` reads it (both cases of the letters are accepted). -/
def fromHexChar (c : Byte) : Option Nat :=
  if 48 ≤ c.val ∧ c.val ≤ 57 then some (c.val - 48)
  else if 97 ≤ c.val ∧ c.val ≤ 102 then some (c.val - 97 + 10)
  else if 65 ≤ c.val ∧ c.val ≤ 70 then some (c.val - 65 + 10)
  else none

/-- Decoding of a list of hexadecimal characters, two per byte. -/
def decodeHexChars : List Byte → Option (List Byte)
  | [] => some []
  | [_] => none
  | p :: q :: rest =>
    match fromHexChar p, fromHexChar q, decodeHexChars rest with
    | some a, some b, some out => some (Fin.ofNat (a * 16 + b) :: out)
    | _, _, _ => none

/-- Modelled from the spec: `hex.DecodeString`, the inverse the hexadecimal text is read
back with; `none` stands for its error (odd length or a character that is no digit). -/
def DecodeString (s : GoString) : Option (List Byte) := decodeHexChars s.bytes

/-- A character of lowercase hexadecimal text: `0`-`9` or `a`-`f`. -/
def isLowerHexChar (c : Byte) : Bool :=
  (48 ≤ c.val && c.val ≤ 57) || (97 ≤ c.val && c.val ≤ 102)

/-! ## The package -/

structure Tx where
  Id : GoString
  ChannelId : GoString
  TimeStamp : Time
  HeaderType : Int
  ValidationCode : Int
  ChaincodeType : Int
  ChaincodeName : GoString
  ChaincodeVersion : GoString
  ChainCodeInput : Slice GoString
  TransientMap : GoMap
  IsInit : Bool
  Response : Option Response
  EventName : GoString
  EventInput : Bytes
  MspId : GoString
  MspIdBytes : GoString
  Payload : Bytes
deriving DecidableEq, Repr

structure SampleBlock where
  BlockHeight : Nat
  PreviousHash : GoString
  DataHash : GoString
  TimeStamp : Time
  TxList : Slice Tx
deriving DecidableEq, Repr

/-- The function `byteArray2StrArray`: `args` starts as `make([]string, 0, len(d))` and
gets `string(v)` appended for every `v` of `d`. -/
def byteArray2StrArray (d : Slice Bytes) : Slice GoString :=
  d.toList.foldl (fun args v => append args (GoString.ofBytes v)) (make d.len)

/-- How a stretch of the loop body ends. -/
inductive Step (α : Type) where
  /-- control reaches the end of the stretch with these values -/
  | next (a : α) : Step α
  /-- the statement `return nil, err` -/
  | exit (err : GoError) : Step α
  /-- a run-time panic -/
  | fault : Step α
deriving DecidableEq, Repr

/-- The local variables of the loop body that are read after line 106. -/
structure Decoded where
  payload : Payload
  identity : SerializedIdentity
  channelHeader : ChannelHeader
  chaincodeAction : ChaincodeAction
  chaincodeEvent : ChaincodeEvent
  chaincodeProposalPayload : ChaincodeProposalPayload
  chaincodeInvocationSpec : ChaincodeInvocationSpec
deriving DecidableEq, Repr

/-- Lines 54-106 of `ParseSampleBlock`: the decode steps on one element `d` of
`block.Data.Data`. `payload.Header` is dereferenced without a check (line 64), the
error of `UnmarshalTransaction` is returned as it is (line 81), and `transaction.Actions[0]`
(line 87) is an index expression after the length test of line 83. -/
def decodeSteps (P : Library) (d : Bytes) : Step Decoded :=
  match P.UnmarshalEnvelope d with
  | .error err => .exit (.errorf "UnmarshalEnvelope" (.decoder err))
  | .ok envelope =>
  match P.UnmarshalPayload envelope.Payload with
  | .error err => .exit (.errorf "UnmarshalPayload" (.decoder err))
  | .ok payload =>
  match payload.Header with
  | none => .fault
  | some header =>
  match P.UnmarshalSignatureHeader header.SignatureHeader with
  | .error err => .exit (.errorf "UnmarshalSignatureHeader" (.decoder err))
  | .ok signHeader =>
  match P.UnmarshalSerializedIdentity signHeader.Creator with
  | .error err => .exit (.errorf "UnmarshalSerializedIdentity" (.decoder err))
  | .ok identity =>
  match P.UnmarshalChannelHeader header.ChannelHeader with
  | .error err => .exit (.errorf "UnmarshalChannelHeader" (.decoder err))
  | .ok channelHeader =>
  match P.UnmarshalTransaction payload.Data with
  | .error err => .exit (.decoder err)
  | .ok transaction =>
  if transaction.Actions.len = 0 then
    .exit (.errorsNew "at least one TransactionAction required")
  else
  match transaction.Actions.toList[0]? with
  | none => .fault
  | some action0 =>
  match P.GetPayloads action0 with
  | .error err => .exit (.errorf "GetPayloads" (.decoder err))
  | .ok (chaincodePayloadAction, chaincodeAction) =>
  match P.UnmarshalChaincodeEvents chaincodeAction.Events with
  | .error err => .exit (.errorf "UnmarshalChaincodeEvents" (.decoder err))
  | .ok chaincodeEvent =>
  match P.UnmarshalChaincodeProposalPayload chaincodePayloadAction.ChaincodeProposalPayload with
  | .error err => .exit (.errorf "UnmarshalChaincodeProposalPayload" (.decoder err))
  | .ok chaincodeProposalPayload =>
  match P.UnmarshalChaincodeInvocationSpec chaincodeProposalPayload.Input with
  | .error err => .exit (.errorf "UnmarshalChaincodeInvocationSpec" (.decoder err))
  | .ok chaincodeInvocationSpec =>
    .next
      { payload := payload
        identity := identity
        channelHeader := channelHeader
        chaincodeAction := chaincodeAction
        chaincodeEvent := chaincodeEvent
        chaincodeProposalPayload := chaincodeProposalPayload
        chaincodeInvocationSpec := chaincodeInvocationSpec }

/-- Lines 107-127: the `Tx` appended for element `i`. The status byte is
`block.GetMetadata().GetMetadata()[TRANSACTIONS_FILTER][i]`, two unchecked index
expressions, and `spec.ChaincodeId` dereferences `spec` without a check. -/
def buildTx (P : Library) (block : Block) (i : Nat) (v : Decoded) : Step Tx :=
  let spec := v.chaincodeInvocationSpec.ChaincodeSpec
  match block.GetMetadata.toList[BlockMetadataIndex_TRANSACTIONS_FILTER]? with
  | none => .fault
  | some filter =>
  match filter.toList[i]? with
  | none => .fault
  | some code =>
  match spec with
  | none => .fault
  | some s =>
    .next
      { Id := v.channelHeader.TxId
        ChannelId := v.channelHeader.ChannelId
        TimeStamp := P.AsTime v.channelHeader.Timestamp
        HeaderType := v.channelHeader.Type_
        ValidationCode := (code.val : Int)
        ChaincodeType := ChaincodeSpec.GetType spec
        ChaincodeName := ChaincodeID.GetName s.ChaincodeId
        ChaincodeVersion := ChaincodeID.GetVersion s.ChaincodeId
        ChainCodeInput := byteArray2StrArray (ChaincodeInput.GetArgs (ChaincodeSpec.GetInput spec))
        TransientMap := v.chaincodeProposalPayload.TransientMap
        IsInit := ChaincodeInput.GetIsInit (ChaincodeSpec.GetInput spec)
        Response := v.chaincodeAction.Response
        EventName := v.chaincodeEvent.EventName
        EventInput := v.chaincodeEvent.Payload
        MspId := v.identity.Mspid
        MspIdBytes := GoString.ofBytes v.identity.IdBytes
        Payload := v.payload.Data }

/-- The body of the loop of line 53, for index `i` and element `d`. -/
def loopBody (P : Library) (block : Block) (i : Nat) (d : Bytes) : Step Tx :=
  match decodeSteps P d with
  | .next v => buildTx P block i v
  | .exit err => .exit err
  | .fault => .fault

/-- The loop `for i, d := range block.Data.Data`, from index `i` on, with `txList` the
value of `resp.TxList` so far. -/
def loop (P : Library) (block : Block) : Nat → List Bytes → Slice Tx → Step (Slice Tx)
  | _, [], txList => .next txList
  | i, d :: rest, txList =>
    match loopBody P block i d with
    | .next tx => loop P block (i + 1) rest (append txList tx)
    | .exit err => .exit err
    | .fault => .fault

/-- What a call of `ParseSampleBlock` does: it returns its pair of results, or panics. -/
inductive Outcome where
  | returns (resp : Option SampleBlock) (err : Option GoError) : Outcome
  | fault : Outcome
deriving DecidableEq, Repr

/-- Lines 129-131: the time stamp of the last element when `resp.TxList` is not empty. -/
def lastTimeStamp (txList : Slice Tx) (old : Time) : Time :=
  if 0 < txList.len then
    match txList.toList[txList.len - 1]? with
    | some tx => tx.TimeStamp
    | none => old
  else old

/-- The function `ParseSampleBlock`. -/
def ParseSampleBlock (P : Library) (block : Block) : Outcome :=
  match block.Header with
  | none => .fault
  | some header =>
    if header.Number ≤ 0 then .returns none none
    else
      match block.Data with
      | none => .fault
      | some data =>
        let resp : SampleBlock :=
          { BlockHeight := header.Number
            PreviousHash := EncodeToString header.PreviousHash
            DataHash := EncodeToString header.DataHash
            TimeStamp := Time.zero
            TxList := make data.Data.len }
        match loop P block 0 data.Data.toList resp.TxList with
        | .fault => .fault
        | .exit err => .returns none (some err)
        | .next txList =>
          .returns (some { resp with TxList := txList, TimeStamp := lastTimeStamp txList resp.TimeStamp }) none

/-! ## Observers used to state the properties -/

/-- The ten decoder calls of lines 54-106, in program order. -/
inductive DecodeStep where
  | envelope
  | payload
  | signatureHeader
  | serializedIdentity
  | channelHeader
  | transaction
  | actionPayloads
  | chaincodeEvent
  | chaincodeProposalPayload
  | chaincodeInvocationSpec
deriving DecidableEq, Repr

/-- The text each call site of `fmt.Errorf` puts before `": %w"` (lines 56, 61, 66, 71, 76,
89, 94, 100, 105); line 81 has no `fmt.Errorf`, hence `none` for the transaction step. -/
def DecodeStep.label : DecodeStep → Option String
  | .envelope => some "UnmarshalEnvelope"
  | .payload => some "UnmarshalPayload"
  | .signatureHeader => some "UnmarshalSignatureHeader"
  | .serializedIdentity => some "UnmarshalSerializedIdentity"
  | .channelHeader => some "UnmarshalChannelHeader"
  | .transaction => none
  | .actionPayloads => some "GetPayloads"
  | .chaincodeEvent => some "UnmarshalChaincodeEvents"
  | .chaincodeProposalPayload => some "UnmarshalChaincodeProposalPayload"
  | .chaincodeInvocationSpec => some "UnmarshalChaincodeInvocationSpec"

/-- The first decoder call of lines 54-106 that returns an error on element `d`, with that
error; `none` when no call fails before control leaves the stretch. The calls and their
arguments are those of `decodeSteps`. -/
def failedStep (P : Library) (d : Bytes) : Option (DecodeStep × DecodeError) :=
  match P.UnmarshalEnvelope d with
  | .error err => some (.envelope, err)
  | .ok envelope =>
  match P.UnmarshalPayload envelope.Payload with
  | .error err => some (.payload, err)
  | .ok payload =>
  match payload.Header with
  | none => none
  | some header =>
  match P.UnmarshalSignatureHeader header.SignatureHeader with
  | .error err => some (.signatureHeader, err)
  | .ok signHeader =>
  match P.UnmarshalSerializedIdentity signHeader.Creator with
  | .error err => some (.serializedIdentity, err)
  | .ok _ =>
  match P.UnmarshalChannelHeader header.ChannelHeader with
  | .error err => some (.channelHeader, err)
  | .ok _ =>
  match P.UnmarshalTransaction payload.Data with
  | .error err => some (.transaction, err)
  | .ok transaction =>
  if transaction.Actions.len = 0 then none
  else
  match transaction.Actions.toList[0]? with
  | none => none
  | some action0 =>
  match P.GetPayloads action0 with
  | .error err => some (.actionPayloads, err)
  | .ok (chaincodePayloadAction, chaincodeAction) =>
  match P.UnmarshalChaincodeEvents chaincodeAction.Events with
  | .error err => some (.chaincodeEvent, err)
  | .ok _ =>
  match P.UnmarshalChaincodeProposalPayload chaincodePayloadAction.ChaincodeProposalPayload with
  | .error err => some (.chaincodeProposalPayload, err)
  | .ok chaincodeProposalPayload =>
  match P.UnmarshalChaincodeInvocationSpec chaincodeProposalPayload.Input with
  | .error err => some (.chaincodeInvocationSpec, err)
  | .ok _ => none

/-- Element `d` decodes through the transaction step (lines 54-82 raise no error and no
panic) and the decoded transaction has no action. -/
def zeroActions (P : Library) (d : Bytes) : Prop :=
  ∃ envelope payload header signHeader identity channelHeader transaction,
    P.UnmarshalEnvelope d = .ok envelope ∧
    P.UnmarshalPayload envelope.Payload = .ok payload ∧
    payload.Header = some header ∧
    P.UnmarshalSignatureHeader header.SignatureHeader = .ok signHeader ∧
    P.UnmarshalSerializedIdentity signHeader.Creator = .ok identity ∧
    P.UnmarshalChannelHeader header.ChannelHeader = .ok channelHeader ∧
    P.UnmarshalTransaction payload.Data = .ok transaction ∧
    transaction.Actions.len = 0

/-- The error of line 84. -/
def errNoActions : GoError := .errorsNew "at least one TransactionAction required"

/-- Two results of `UnmarshalTransaction` that differ at most in the actions at the
indices 1 and above, with at least one action in both or none in both. -/
def sameFirstAction : Except DecodeError Transaction → Except DecodeError Transaction → Prop
  | .error e1, .error e2 => e1 = e2
  | .ok t1, .ok t2 => t1.Actions.toList.head? = t2.Actions.toList.head?
  | _, _ => False

/-! ## A small wire format, for concrete blocks

An element of `block.Data.Data` is one header byte followed by one byte per action. The
codes 250 to 255 make the decoders fail or leave a pointer nil. -/

/-- The bytes of a text of ASCII characters. -/
def GoString.lit (s : String) : GoString := ⟨s.toList.map fun c => Fin.ofNat c.toNat⟩

def sampleUnmarshalEnvelope (d : Bytes) : Except DecodeError Envelope :=
  match d.toList with
  | [] => .error ⟨"empty envelope"⟩
  | _ :: _ => .ok { Payload := d }

def sampleUnmarshalPayload (p : Bytes) : Except DecodeError Payload :=
  match p.toList with
  | [] => .error ⟨"empty payload"⟩
  | h :: data =>
    if h = 255 then .error ⟨"bad payload"⟩
    else if h = 254 then .ok { Header := none, Data := .mk data }
    else .ok { Header := some { ChannelHeader := .mk [h], SignatureHeader := .mk [h] }, Data := .mk data }

def sampleUnmarshalSignatureHeader (b : Bytes) : Except DecodeError SignatureHeader :=
  if b.toList.head? = some 253 then .error ⟨"bad signature header"⟩ else .ok { Creator := b }

def sampleUnmarshalSerializedIdentity (b : Bytes) : Except DecodeError SerializedIdentity :=
  if b.toList.head? = some 252 then .error ⟨"bad identity"⟩
  else .ok { Mspid := GoString.lit "Org1MSP", IdBytes := b }

def sampleUnmarshalChannelHeader (b : Bytes) : Except DecodeError ChannelHeader :=
  match b.toList.head? with
  | none => .error ⟨"empty channel header"⟩
  | some h =>
    if h = 251 then .error ⟨"bad channel header"⟩
    else .ok { Type_ := 3, Timestamp := some ⟨h.val, 0⟩, ChannelId := GoString.lit "mychannel",
               TxId := ⟨[h]⟩ }

def sampleUnmarshalTransaction (b : Bytes) : Except DecodeError Transaction :=
  if b.toList.head? = some 255 then .error ⟨"bad transaction"⟩
  else .ok { Actions := .mk (b.toList.map fun a => { Header := .nil, Payload := .mk [a] }) }

def sampleGetPayloads (action : TransactionAction) :
    Except DecodeError (ChaincodeActionPayload × ChaincodeAction) :=
  if action.Payload.toList.head? = some 254 then .error ⟨"no payload in ChaincodeActionPayload"⟩
  else .ok ({ ChaincodeProposalPayload := action.Payload },
            { Events := action.Payload, Response := some ⟨200, ⟨[]⟩, .nil⟩ })

def sampleUnmarshalChaincodeEvents (b : Bytes) : Except DecodeError ChaincodeEvent :=
  match b.toList.head? with
  | none => .ok { EventName := ⟨[]⟩, Payload := .nil }
  | some a =>
    if a = 253 then .error ⟨"bad event"⟩
    else if a = 0 then .ok { EventName := ⟨[]⟩, Payload := .nil }
    else .ok { EventName := GoString.lit "transfer", Payload := .mk [a] }

def sampleUnmarshalChaincodeProposalPayload (b : Bytes) :
    Except DecodeError ChaincodeProposalPayload :=
  if b.toList.head? = some 252 then .error ⟨"bad proposal payload"⟩
  else .ok { Input := b, TransientMap := none }

def sampleUnmarshalChaincodeInvocationSpec (b : Bytes) :
    Except DecodeError ChaincodeInvocationSpec :=
  if b.toList.head? = some 251 then .error ⟨"bad invocation spec"⟩
  else if b.toList.head? = some 250 then .ok { ChaincodeSpec := none }
  else
    let id : ChaincodeID := { Name := GoString.lit "mycc", Version := GoString.lit "1.0" }
    let input : ChaincodeInput := { Args := .mk [.mk (GoString.lit "invoke").bytes, b], IsInit := false }
    .ok { ChaincodeSpec := some { Type_ := 1, ChaincodeId := some id, Input := some input } }

/-- `AsTime` of the small format: the seconds counted from year 1 (719162 days lie
between January 1 of year 1 and January 1, 1970). -/
def sampleAsTime : Option Timestamp → Time
  | none => ⟨62135596800, 0⟩
  | some t => ⟨62135596800 + t.Seconds, t.Nanos.toNat⟩

/-- The decoders of the small wire format. -/
def sampleLibrary : Library :=
  { UnmarshalEnvelope := sampleUnmarshalEnvelope
    UnmarshalPayload := sampleUnmarshalPayload
    UnmarshalSignatureHeader := sampleUnmarshalSignatureHeader
    UnmarshalSerializedIdentity := sampleUnmarshalSerializedIdentity
    UnmarshalChannelHeader := sampleUnmarshalChannelHeader
    UnmarshalTransaction := sampleUnmarshalTransaction
    GetPayloads := sampleGetPayloads
    UnmarshalChaincodeEvents := sampleUnmarshalChaincodeEvents
    UnmarshalChaincodeProposalPayload := sampleUnmarshalChaincodeProposalPayload
    UnmarshalChaincodeInvocationSpec := sampleUnmarshalChaincodeInvocationSpec
    AsTime := sampleAsTime }

/-- The small format with a transaction decoder that keeps the first action only. -/
def sampleLibraryFirstAction : Library :=
  { sampleLibrary with
    UnmarshalTransaction := fun b =>
      match sampleUnmarshalTransaction b with
      | .error err => .error err
      | .ok t => .ok { Actions := .mk (t.Actions.toList.take 1) } }

/-- A block of the small format. -/
def sampleBlock (number : Nat) (data : List (List Byte)) (metadata : Option BlockMetadata) : Block :=
  { Header := some { Number := number, PreviousHash := .mk [0, 171], DataHash := .mk [255, 16] }
    Data := some { Data := .mk (data.map Slice.mk) }
    Metadata := metadata }

/-- A block with a header and without data section (`block.Data == nil`). -/
def sampleBlockNoData (number : Nat) (metadata : Option BlockMetadata) : Block :=
  { Header := some { Number := number, PreviousHash := .mk [0, 171], DataHash := .mk [255, 16] }
    Data := none
    Metadata := metadata }

/-- Metadata whose entry at the index `TRANSACTIONS_FILTER` is `filter`. -/
def sampleMetadata (filter : List Byte) : Option BlockMetadata :=
  some { Metadata := .mk [.nil, .nil, .mk filter] }


/-- The summary `ParseSampleBlock` returns for a block of the small format, and an empty
summary when it returns none. -/
def sampleSummary (number : Nat) (data : List (List Byte)) (filter : List Byte) : SampleBlock :=
  match ParseSampleBlock sampleLibrary (sampleBlock number data (sampleMetadata filter)) with
  | .returns (some s) _ => s
  | _ => ⟨0, ⟨[]⟩, ⟨[]⟩, Time.zero, .nil⟩

/-! ## Observers for the assembly of a `Tx` and for the order of the checks -/

/-- The values `v` were decoded from element `d` by the chain of lines 54-106: each local
variable is the result of its decoder on the field of the variable before it. -/
def DecodedFrom (P : Library) (d : Bytes) (v : Decoded) : Prop :=
  ∃ envelope header signHeader transaction action0 rest chaincodePayloadAction,
    P.UnmarshalEnvelope d = .ok envelope ∧
    P.UnmarshalPayload envelope.Payload = .ok v.payload ∧
    v.payload.Header = some header ∧
    P.UnmarshalSignatureHeader header.SignatureHeader = .ok signHeader ∧
    P.UnmarshalSerializedIdentity signHeader.Creator = .ok v.identity ∧
    P.UnmarshalChannelHeader header.ChannelHeader = .ok v.channelHeader ∧
    P.UnmarshalTransaction v.payload.Data = .ok transaction ∧
    transaction.Actions.toList = action0 :: rest ∧
    P.GetPayloads action0 = .ok (chaincodePayloadAction, v.chaincodeAction) ∧
    P.UnmarshalChaincodeEvents v.chaincodeAction.Events = .ok v.chaincodeEvent ∧
    P.UnmarshalChaincodeProposalPayload chaincodePayloadAction.ChaincodeProposalPayload =
      .ok v.chaincodeProposalPayload ∧
    P.UnmarshalChaincodeInvocationSpec v.chaincodeProposalPayload.Input =
      .ok v.chaincodeInvocationSpec

/-- The value of a decoder result, when there is one. -/
def okOf {ε α : Type} : Except ε α → Option α
  | .ok a => some a
  | .error _ => none

/-- The error of a decoder result, when there is one. -/
def errOf {ε α : Type} : Except ε α → Option ε
  | .ok _ => none
  | .error err => some err

/-- The envelope decoded from element `d` (line 54). -/
def envelopeOf (P : Library) (d : Bytes) : Option Envelope := okOf (P.UnmarshalEnvelope d)

/-- The payload decoded from the envelope (line 59). -/
def payloadOf (P : Library) (d : Bytes) : Option Payload :=
  (envelopeOf P d).bind fun envelope => okOf (P.UnmarshalPayload envelope.Payload)

/-- The header of the payload, `payload.Header`. -/
def headerOf (P : Library) (d : Bytes) : Option Header :=
  (payloadOf P d).bind fun payload => payload.Header

/-- The signature header decoded from the header of the payload (line 64). -/
def signHeaderOf (P : Library) (d : Bytes) : Option SignatureHeader :=
  (headerOf P d).bind fun header => okOf (P.UnmarshalSignatureHeader header.SignatureHeader)

/-- The transaction decoded from the data of the payload (line 79). -/
def transactionOf (P : Library) (d : Bytes) : Option Transaction :=
  (payloadOf P d).bind fun payload => okOf (P.UnmarshalTransaction payload.Data)

/-- The first action of the transaction, `transaction.Actions[0]`. -/
def firstActionOf (P : Library) (d : Bytes) : Option TransactionAction :=
  (transactionOf P d).bind fun transaction => transaction.Actions.toList.head?

/-- The two results of `GetPayloads` on the first action (line 87). -/
def payloadsOf (P : Library) (d : Bytes) : Option (ChaincodeActionPayload × ChaincodeAction) :=
  (firstActionOf P d).bind fun action0 => okOf (P.GetPayloads action0)

/-- The chaincode proposal payload decoded at line 98. -/
def proposalPayloadOf (P : Library) (d : Bytes) : Option ChaincodeProposalPayload :=
  (payloadsOf P d).bind fun p =>
    okOf (P.UnmarshalChaincodeProposalPayload p.1.ChaincodeProposalPayload)

/-- The failure of one decode step on element `d`, taken on its own: the error of its
decoder on the bytes the step reads, when the steps those bytes come from gave them.
Whether steps it does not read from fail plays no part. -/
def stepFailure (P : Library) (d : Bytes) : DecodeStep → Option DecodeError
  | .envelope => errOf (P.UnmarshalEnvelope d)
  | .payload => (envelopeOf P d).bind fun envelope => errOf (P.UnmarshalPayload envelope.Payload)
  | .signatureHeader =>
    (headerOf P d).bind fun header => errOf (P.UnmarshalSignatureHeader header.SignatureHeader)
  | .serializedIdentity =>
    (signHeaderOf P d).bind fun signHeader => errOf (P.UnmarshalSerializedIdentity signHeader.Creator)
  | .channelHeader =>
    (headerOf P d).bind fun header => errOf (P.UnmarshalChannelHeader header.ChannelHeader)
  | .transaction => (payloadOf P d).bind fun payload => errOf (P.UnmarshalTransaction payload.Data)
  | .actionPayloads => (firstActionOf P d).bind fun action0 => errOf (P.GetPayloads action0)
  | .chaincodeEvent => (payloadsOf P d).bind fun p => errOf (P.UnmarshalChaincodeEvents p.2.Events)
  | .chaincodeProposalPayload =>
    (payloadsOf P d).bind fun p =>
      errOf (P.UnmarshalChaincodeProposalPayload p.1.ChaincodeProposalPayload)
  | .chaincodeInvocationSpec =>
    (proposalPayloadOf P d).bind fun cpp => errOf (P.UnmarshalChaincodeInvocationSpec cpp.Input)

/-- The error the return statement of a decode step gives for the error `err` of its
decoder: behind the label of the step, and bare at line 81. -/
def DecodeStep.wrap (step : DecodeStep) (err : DecodeError) : GoError :=
  match step.label with
  | some label => .errorf label (.decoder err)
  | none => .decoder err

/-- The eleven checks of lines 54-106: the ten decode steps and the test of line 83. -/
inductive Check where
  | step (s : DecodeStep)
  | noActions
deriving DecidableEq, Repr

/-- The place of a check in the program order. -/
def Check.index : Check → Nat
  | .step .envelope => 0
  | .step .payload => 1
  | .step .signatureHeader => 2
  | .step .serializedIdentity => 3
  | .step .channelHeader => 4
  | .step .transaction => 5
  | .noActions => 6
  | .step .actionPayloads => 7
  | .step .chaincodeEvent => 8
  | .step .chaincodeProposalPayload => 9
  | .step .chaincodeInvocationSpec => 10

/-- The error a check raises on element `d`, taken on its own; `none` when the check
passes or when what it reads is not there. -/
def checkError (P : Library) (d : Bytes) : Check → Option GoError
  | .step s => (stepFailure P d s).map s.wrap
  | .noActions =>
    (transactionOf P d).bind fun transaction =>
      if transaction.Actions.len = 0 then some errNoActions else none

/-- The small format with an event that carries the payload 1, 2, 3: an action byte 0
raises no event, every other action byte raises the event "transfer". -/
def scenarioLibrary : Library :=
  { sampleLibrary with
    UnmarshalChaincodeEvents := fun b =>
      match b.toList.head? with
      | none => .ok { EventName := ⟨[]⟩, Payload := .nil }
      | some a =>
        if a = 0 then .ok { EventName := ⟨[]⟩, Payload := .nil }
        else .ok { EventName := GoString.lit "transfer", Payload := .mk [1, 2, 3] } }

/-- The summary `ParseSampleBlock` returns with `scenarioLibrary`, and an empty summary
when it returns none. -/
def scenarioSummary (number : Nat) (data : List (List Byte)) (filter : List Byte) : SampleBlock :=
  match ParseSampleBlock scenarioLibrary (sampleBlock number data (sampleMetadata filter)) with
  | .returns (some s) _ => s
  | _ => ⟨0, ⟨[]⟩, ⟨[]⟩, Time.zero, .nil⟩

/-! ## Theorems -/


/-! ### The loop -/

theorem Slice.toList_mk {α : Type} (l : List α) : (Slice.mk l).toList = l := rfl

theorem Slice.len_mk {α : Type} (l : List α) : (Slice.mk l).len = l.length := rfl

theorem append_mk {α : Type} (l : List α) (x : α) : append (Slice.mk l) x = Slice.mk (l ++ [x]) := rfl

/-- When the loop runs to its end, every element gave a `Tx`, appended in order. -/
theorem loop_next (P : Library) (block : Block) :
    ∀ (ds : List Bytes) (i : Nat) (l : List Tx) (out : Slice Tx),
      loop P block i ds (.mk l) = .next out →
      ∃ txs : List Tx, out = .mk (l ++ txs) ∧ txs.length = ds.length ∧
        ∀ k d, ds[k]? = some d → ∃ tx, txs[k]? = some tx ∧ loopBody P block (i + k) d = .next tx := by
  intro ds
  induction ds with
  | nil =>
    intro i l out h
    simp only [loop, Step.next.injEq] at h
    exact ⟨[], by simp [h], rfl, by simp⟩
  | cons d rest ih =>
    intro i l out h
    simp only [loop] at h
    cases hb : loopBody P block i d with
    | next tx =>
      rw [hb] at h
      simp only [append_mk] at h
      obtain ⟨txs, hout, hlen, hall⟩ := ih (i + 1) (l ++ [tx]) out h
      refine ⟨tx :: txs, by simp [hout], by simp [hlen], ?_⟩
      intro k dk hk
      cases k with
      | zero =>
        simp only [List.getElem?_cons_zero, Option.some.injEq] at hk
        subst hk
        exact ⟨tx, by simp, by simpa using hb⟩
      | succ k =>
        simp only [List.getElem?_cons_succ] at hk
        obtain ⟨tx2, h1, h2⟩ := hall k dk hk
        refine ⟨tx2, by simpa using h1, ?_⟩
        have : i + (k + 1) = i + 1 + k := by omega
        rw [this]
        exact h2
    | exit err => rw [hb] at h; simp at h
    | fault => rw [hb] at h; simp at h

/-- When every element gives a `Tx`, the loop runs to its end. -/
theorem loop_of_all_next (P : Library) (block : Block) :
    ∀ (ds : List Bytes) (i : Nat) (l : List Tx),
      (∀ k d, ds[k]? = some d → ∃ tx, loopBody P block (i + k) d = .next tx) →
      ∃ out, loop P block i ds (.mk l) = .next out := by
  intro ds
  induction ds with
  | nil => intro i l _; exact ⟨_, rfl⟩
  | cons d rest ih =>
    intro i l h
    obtain ⟨tx, htx⟩ := h 0 d (by simp)
    simp only [loop]
    rw [show i + 0 = i from rfl] at htx
    rw [htx]
    simp only [append_mk]
    apply ih (i + 1) (l ++ [tx])
    intro k dk hk
    have := h (k + 1) dk (by simpa using hk)
    have e : i + (k + 1) = i + 1 + k := by omega
    rw [e] at this
    exact this

/-- The loop stops with the error of the first element that does not give a `Tx`. -/
theorem loop_exit (P : Library) (block : Block) :
    ∀ (ds : List Bytes) (i : Nat) (l : List Tx) (k : Nat) (d : Bytes) (err : GoError),
      ds[k]? = some d →
      (∀ j dj, j < k → ds[j]? = some dj → ∃ tx, loopBody P block (i + j) dj = .next tx) →
      loopBody P block (i + k) d = .exit err →
      loop P block i ds (.mk l) = .exit err := by
  intro ds
  induction ds with
  | nil => intro i l k d err hk; simp at hk
  | cons d0 rest ih =>
    intro i l k d err hk hbefore hfail
    cases k with
    | zero =>
      simp only [List.getElem?_cons_zero, Option.some.injEq] at hk
      subst hk
      simp only [loop]
      rw [show i + 0 = i from rfl] at hfail
      rw [hfail]
    | succ k =>
      obtain ⟨tx, htx⟩ := hbefore 0 d0 (by omega) (by simp)
      rw [show i + 0 = i from rfl] at htx
      simp only [loop]
      rw [htx]
      simp only [append_mk]
      apply ih (i + 1) (l ++ [tx]) k d err (by simpa using hk)
      · intro j dj hj hdj
        have := hbefore (j + 1) dj (by omega) (by simpa using hdj)
        have e : i + (j + 1) = i + 1 + j := by omega
        rw [e] at this
        exact this
      · have e : i + (k + 1) = i + 1 + k := by omega
        rw [e] at hfail
        exact hfail

/-- An element that gives an error makes the loop stop with an error, unless an element
before it panics. -/
theorem loop_exit_of_no_fault (P : Library) (block : Block) :
    ∀ (ds : List Bytes) (i : Nat) (l : List Tx) (m : Nat) (d : Bytes) (err : GoError),
      ds[m]? = some d →
      loopBody P block (i + m) d = .exit err →
      (∀ j dj, j < m → ds[j]? = some dj → loopBody P block (i + j) dj ≠ .fault) →
      ∃ err2, loop P block i ds (.mk l) = .exit err2 := by
  intro ds
  induction ds with
  | nil => intro i l m d err hm; simp at hm
  | cons d0 rest ih =>
    intro i l m d err hm hfail hnofault
    cases m with
    | zero =>
      simp only [List.getElem?_cons_zero, Option.some.injEq] at hm
      subst hm
      rw [show i + 0 = i from rfl] at hfail
      exact ⟨err, by simp only [loop]; rw [hfail]⟩
    | succ m =>
      cases hb : loopBody P block i d0 with
      | next tx =>
        simp only [loop]
        rw [hb]
        simp only [append_mk]
        apply ih (i + 1) (l ++ [tx]) m d err (by simpa using hm)
        · have e : i + (m + 1) = i + 1 + m := by omega
          rw [e] at hfail
          exact hfail
        · intro j dj hj hdj
          have := hnofault (j + 1) dj (by omega) (by simpa using hdj)
          have e : i + (j + 1) = i + 1 + j := by omega
          rw [e] at this
          exact this
      | exit err0 => exact ⟨err0, by simp only [loop]; rw [hb]⟩
      | fault =>
        exact absurd hb (hnofault 0 d0 (by omega) (by simp))

/-- The shape of a call on a block with a header of positive number and a data section. -/
theorem ParseSampleBlock_pos (P : Library) (block : Block) (header : BlockHeader) (data : BlockData)
    (hHeader : block.Header = some header) (hNumber : 0 < header.Number)
    (hData : block.Data = some data) :
    ParseSampleBlock P block =
      match loop P block 0 data.Data.toList (.mk []) with
      | .fault => .fault
      | .exit err => .returns none (some err)
      | .next txList =>
        .returns (some
          { BlockHeight := header.Number
            PreviousHash := EncodeToString header.PreviousHash
            DataHash := EncodeToString header.DataHash
            TimeStamp := lastTimeStamp txList Time.zero
            TxList := txList }) none := by
  have hn : ¬ header.Number ≤ 0 := by omega
  simp only [ParseSampleBlock, hHeader, hData, hn, if_false, make]

/-- A summary is returned only by a call that got past the height check and ran the loop
to its end. -/
theorem ParseSampleBlock_some (P : Library) (block : Block) (s : SampleBlock) (err : Option GoError)
    (h : ParseSampleBlock P block = .returns (some s) err) :
    ∃ header data txList, block.Header = some header ∧ 0 < header.Number ∧ block.Data = some data ∧
      loop P block 0 data.Data.toList (.mk []) = .next txList ∧ err = none ∧
      s = { BlockHeight := header.Number
            PreviousHash := EncodeToString header.PreviousHash
            DataHash := EncodeToString header.DataHash
            TimeStamp := lastTimeStamp txList Time.zero
            TxList := txList } := by
  cases hH : block.Header with
  | none => simp [ParseSampleBlock, hH] at h
  | some header =>
    by_cases hn : header.Number ≤ 0
    · simp [ParseSampleBlock, hH, hn] at h
    · cases hD : block.Data with
      | none => simp [ParseSampleBlock, hH, hn, hD] at h
      | some data =>
        rw [ParseSampleBlock_pos P block header data hH (by omega) hD] at h
        cases hl : loop P block 0 data.Data.toList (.mk []) with
        | fault => rw [hl] at h; simp at h
        | exit e => rw [hl] at h; simp at h
        | next txList =>
          rw [hl] at h
          simp only [Outcome.returns.injEq, Option.some.injEq] at h
          exact ⟨header, data, txList, rfl, by omega, rfl, hl, h.2.symm, h.1.symm⟩

/-! ### The decode steps -/

/-- The error returned when a decoder call fails: the error of the decoder behind the
label of the call site, and bare for the transaction step. -/
theorem decodeSteps_of_failedStep (P : Library) (d : Bytes) (step : DecodeStep) (err : DecodeError)
    (h : failedStep P d = some (step, err)) :
    decodeSteps P d = .exit (match step.label with
      | some label => .errorf label (.decoder err)
      | none => .decoder err) := by
  simp only [failedStep] at h
  simp only [decodeSteps]
  repeat' split at h
  all_goals first
    | (simp only [Option.some.injEq, Prod.mk.injEq] at h
       obtain ⟨rfl, rfl⟩ := h
       simp_all [DecodeStep.label])
    | simp at h

/-- An element whose transaction has no action gives the error of line 84. -/
theorem decodeSteps_of_zeroActions (P : Library) (d : Bytes) (h : zeroActions P d) :
    decodeSteps P d = .exit errNoActions := by
  obtain ⟨envelope, payload, header, signHeader, identity, channelHeader, transaction,
    h1, h2, h3, h4, h5, h6, h7, h8⟩ := h
  simp only [decodeSteps, h1, h2, h3, h4, h5, h6, h7, h8, if_true, errNoActions]

/-- An error comes from a failed decoder call or from the check of line 83. -/
theorem decodeSteps_exit (P : Library) (d : Bytes) (err : GoError)
    (h : decodeSteps P d = .exit err) :
    (∃ step e, failedStep P d = some (step, e)) ∨ (zeroActions P d ∧ err = errNoActions) := by
  simp only [decodeSteps] at h
  simp only [failedStep, zeroActions]
  repeat' split at h
  all_goals simp_all [errNoActions, Slice.len]


/-- A list whose element at index 0 is `a` starts with `a`. -/
theorem cons_of_getElem?_zero {α : Type} (l : List α) (a : α) (h : l[0]? = some a) :
    ∃ rest, l = a :: rest := by
  cases l with
  | nil => simp at h
  | cons x xs =>
    simp only [List.getElem?_cons_zero, Option.some.injEq] at h
    exact ⟨xs, by rw [h]⟩

/-- What the decode steps leave in the local variables when none fails, with the first
action as the index expression of line 87 reads it. -/
theorem decodeSteps_next_index (P : Library) (d : Bytes) (v : Decoded)
    (h : decodeSteps P d = .next v) :
    failedStep P d = none ∧
    ∃ envelope header signHeader transaction action0 chaincodePayloadAction,
      P.UnmarshalEnvelope d = .ok envelope ∧
      P.UnmarshalPayload envelope.Payload = .ok v.payload ∧
      v.payload.Header = some header ∧
      P.UnmarshalSignatureHeader header.SignatureHeader = .ok signHeader ∧
      P.UnmarshalSerializedIdentity signHeader.Creator = .ok v.identity ∧
      P.UnmarshalChannelHeader header.ChannelHeader = .ok v.channelHeader ∧
      P.UnmarshalTransaction v.payload.Data = .ok transaction ∧
      transaction.Actions.toList[0]? = some action0 ∧
      P.GetPayloads action0 = .ok (chaincodePayloadAction, v.chaincodeAction) ∧
      P.UnmarshalChaincodeEvents v.chaincodeAction.Events = .ok v.chaincodeEvent ∧
      P.UnmarshalChaincodeProposalPayload chaincodePayloadAction.ChaincodeProposalPayload =
        .ok v.chaincodeProposalPayload ∧
      P.UnmarshalChaincodeInvocationSpec v.chaincodeProposalPayload.Input =
        .ok v.chaincodeInvocationSpec := by
  simp only [decodeSteps] at h
  simp only [failedStep]
  repeat' split at h
  all_goals first
    | (simp only [Step.next.injEq] at h
       subst h
       simp_all)
    | simp at h

/-- What the decode steps leave in the local variables when none fails. -/
theorem decodeSteps_next (P : Library) (d : Bytes) (v : Decoded) (h : decodeSteps P d = .next v) :
    failedStep P d = none ∧
    ∃ envelope header signHeader transaction action0 rest chaincodePayloadAction,
      P.UnmarshalEnvelope d = .ok envelope ∧
      P.UnmarshalPayload envelope.Payload = .ok v.payload ∧
      v.payload.Header = some header ∧
      P.UnmarshalSignatureHeader header.SignatureHeader = .ok signHeader ∧
      P.UnmarshalSerializedIdentity signHeader.Creator = .ok v.identity ∧
      P.UnmarshalChannelHeader header.ChannelHeader = .ok v.channelHeader ∧
      P.UnmarshalTransaction v.payload.Data = .ok transaction ∧
      transaction.Actions.toList = action0 :: rest ∧
      P.GetPayloads action0 = .ok (chaincodePayloadAction, v.chaincodeAction) ∧
      P.UnmarshalChaincodeEvents v.chaincodeAction.Events = .ok v.chaincodeEvent ∧
      P.UnmarshalChaincodeProposalPayload chaincodePayloadAction.ChaincodeProposalPayload =
        .ok v.chaincodeProposalPayload ∧
      P.UnmarshalChaincodeInvocationSpec v.chaincodeProposalPayload.Input =
        .ok v.chaincodeInvocationSpec := by
  obtain ⟨hf, envelope, header, signHeader, transaction, action0, cpa,
    h1, h2, h3, h4, h5, h6, h7, h8, h9, h10, h11, h12⟩ := decodeSteps_next_index P d v h
  obtain ⟨rest, hrest⟩ := cons_of_getElem?_zero _ _ h8
  exact ⟨hf, envelope, header, signHeader, transaction, action0, rest, cpa,
    h1, h2, h3, h4, h5, h6, h7, hrest, h9, h10, h11, h12⟩

/-- The `Tx` built for index `i` reads the status byte at index `i` of the entry at the
index `TRANSACTIONS_FILTER` and needs the chaincode spec to be present. -/
theorem buildTx_next (P : Library) (block : Block) (i : Nat) (v : Decoded) (tx : Tx)
    (h : buildTx P block i v = .next tx) :
    ∃ filter code spec,
      block.GetMetadata.toList[BlockMetadataIndex_TRANSACTIONS_FILTER]? = some filter ∧
      filter.toList[i]? = some code ∧
      v.chaincodeInvocationSpec.ChaincodeSpec = some spec ∧
      tx.ValidationCode = (code.val : Int) ∧
      tx.TimeStamp = P.AsTime v.channelHeader.Timestamp ∧
      tx.Payload = v.payload.Data := by
  simp only [buildTx] at h
  repeat' split at h
  all_goals first
    | (simp only [Step.next.injEq] at h
       subst h
       simp_all)
    | simp at h

/-- The `Tx` is built when the status byte and the chaincode spec are there. -/
theorem buildTx_of_present (P : Library) (block : Block) (i : Nat) (v : Decoded)
    (filter : Bytes) (code : Byte) (spec : ChaincodeSpec)
    (hFilter : block.GetMetadata.toList[BlockMetadataIndex_TRANSACTIONS_FILTER]? = some filter)
    (hCode : filter.toList[i]? = some code)
    (hSpec : v.chaincodeInvocationSpec.ChaincodeSpec = some spec) :
    ∃ tx, buildTx P block i v = .next tx := by
  simp only [buildTx, hFilter, hCode, hSpec]
  exact ⟨_, rfl⟩

/-! ### Height zero -/

/-- C1: for every block whose header number is 0, `ParseSampleBlock` returns no summary and
no error, whatever the data section and the metadata of the block hold (elements that do
not decode, absent metadata) and whatever the decoders do. -/
theorem ParseSampleBlock_height_zero (P : Library) (block : Block) (header : BlockHeader)
    (hHeader : block.Header = some header) (hNumber : header.Number = 0) :
    ParseSampleBlock P block = .returns none none := by
  simp [ParseSampleBlock, hHeader, hNumber]

/-- A block of height 0 whose only element does not decode and whose metadata is absent. -/
theorem ParseSampleBlock_height_zero_witness :
    ParseSampleBlock sampleLibrary (sampleBlock 0 [[255]] none) = .returns none none :=
  ParseSampleBlock_height_zero sampleLibrary (sampleBlock 0 [[255]] none)
    { Number := 0, PreviousHash := .mk [0, 171], DataHash := .mk [255, 16] } rfl rfl

/-! ### Blocks whose elements all decode -/

/-- C2, as stated, fails: the single element of each of the first two blocks passes every
decode step, and the call panics, on the first block because the metadata is absent and on
the second because the decoded invocation spec carries no chaincode spec; the third block
has two elements that decode and one status byte. No summary is returned. -/
theorem ParseSampleBlock_all_decoded_counterexample :
    ((∃ v, decodeSteps sampleLibrary (.mk [7, 1]) = .next v) ∧
      ParseSampleBlock sampleLibrary (sampleBlock 1 [[7, 1]] none) = .fault) ∧
    ((∃ v, decodeSteps sampleLibrary (.mk [7, 250]) = .next v) ∧
      ParseSampleBlock sampleLibrary (sampleBlock 1 [[7, 250]] (sampleMetadata [0])) = .fault) ∧
    ((∃ v, decodeSteps sampleLibrary (.mk [8, 1]) = .next v) ∧
      ParseSampleBlock sampleLibrary (sampleBlock 1 [[7, 1], [8, 1]] (sampleMetadata [0])) = .fault) :=
  ⟨⟨⟨_, rfl⟩, by decide⟩, ⟨⟨_, rfl⟩, by decide⟩, ⟨⟨_, rfl⟩, by decide⟩⟩

/-- C2, amended: for every block with height > 0 and N elements that all pass every decode
step and decode to an invocation spec carrying a chaincode spec, and whose metadata has at
the index `TRANSACTIONS_FILTER` an entry of at least N bytes, `ParseSampleBlock` returns a
summary and no error, the summary has exactly N transactions, and for every k < N the
`ValidationCode` of transaction k is byte k of that entry, cast to the enumeration. -/
theorem ParseSampleBlock_all_decoded (P : Library) (block : Block) (header : BlockHeader)
    (data : BlockData) (filter : Bytes)
    (hHeader : block.Header = some header) (hNumber : 0 < header.Number)
    (hData : block.Data = some data)
    (hDecode : ∀ d ∈ data.Data.toList,
      ∃ v, decodeSteps P d = .next v ∧ v.chaincodeInvocationSpec.ChaincodeSpec ≠ none)
    (hFilter : block.GetMetadata.toList[BlockMetadataIndex_TRANSACTIONS_FILTER]? = some filter)
    (hLen : data.Data.len ≤ filter.len) :
    ∃ s, ParseSampleBlock P block = .returns (some s) none ∧
      s.TxList.len = data.Data.len ∧
      ∀ k, k < data.Data.len →
        ∃ tx code, s.TxList.toList[k]? = some tx ∧ filter.toList[k]? = some code ∧
          tx.ValidationCode = (code.val : Int) := by
  have hall : ∀ k d, data.Data.toList[k]? = some d →
      ∃ tx, loopBody P block (0 + k) d = .next tx := by
    intro k d hk
    obtain ⟨v, hv, hspec⟩ := hDecode d (List.getElem?_mem hk)
    obtain ⟨spec, hs⟩ := Option.ne_none_iff_exists'.mp hspec
    have hklt : k < data.Data.toList.length := (List.getElem?_eq_some_iff.mp hk).1
    have hk2 : k < filter.toList.length := by
      simp only [Slice.len] at hLen
      omega
    have hcode : filter.toList[k]? = some (filter.toList[k]) := List.getElem?_eq_getElem hk2
    simp only [loopBody, hv, Nat.zero_add]
    exact buildTx_of_present P block k v filter _ spec hFilter hcode hs
  obtain ⟨out, hout⟩ := loop_of_all_next P block data.Data.toList 0 [] hall
  obtain ⟨txs, hmk, hlen, hget⟩ := loop_next P block data.Data.toList 0 [] out hout
  rw [ParseSampleBlock_pos P block header data hHeader hNumber hData, hout]
  refine ⟨_, rfl, ?_, ?_⟩
  · simp [hmk, Slice.len, Slice.toList, hlen]
  · intro k hk
    have hk1 : k < data.Data.toList.length := hk
    obtain ⟨tx, htx, hbody⟩ := hget k _ (List.getElem?_eq_getElem hk1)
    obtain ⟨v, hv, -⟩ := hDecode _ (List.getElem_mem hk1)
    simp only [loopBody, hv, Nat.zero_add] at hbody
    obtain ⟨filter2, code, spec, hf, hc, -, hval, -⟩ := buildTx_next P block k v tx hbody
    rw [hFilter] at hf
    cases hf
    exact ⟨tx, code, by simpa [hmk, Slice.toList] using htx, hc, hval⟩

/-- A block of height 7 with two elements that decode and the status bytes 0 and 11. -/
theorem ParseSampleBlock_all_decoded_witness :
    ∃ s, ParseSampleBlock sampleLibrary (sampleBlock 7 [[7, 1], [9, 5, 2]] (sampleMetadata [0, 11])) =
        .returns (some s) none ∧
      s.TxList.len = 2 ∧
      ∀ k, k < 2 →
        ∃ tx code, s.TxList.toList[k]? = some tx ∧ [(0 : Byte), 11][k]? = some code ∧
          tx.ValidationCode = (code.val : Int) :=
  ParseSampleBlock_all_decoded sampleLibrary (sampleBlock 7 [[7, 1], [9, 5, 2]] (sampleMetadata [0, 11]))
    { Number := 7, PreviousHash := .mk [0, 171], DataHash := .mk [255, 16] }
    { Data := .mk [.mk [7, 1], .mk [9, 5, 2]] } (.mk [0, 11]) rfl (by decide) rfl
    (by
      intro d hd
      simp only [Slice.toList, List.mem_cons, List.mem_singleton, List.not_mem_nil, or_false] at hd
      rcases hd with rfl | rfl
      · exact ⟨_, rfl, by decide⟩
      · exact ⟨_, rfl, by decide⟩)
    rfl (by decide)

/-! ### Blocks with an element that fails -/

/-- C3, as stated, fails: the second element of the block fails the payload step, and the
call returns no error: it panics on the first element, which decodes and has no status
byte because the metadata is absent. -/
theorem ParseSampleBlock_failing_element_counterexample :
    failedStep sampleLibrary (.mk [255]) = some (.payload, ⟨"bad payload"⟩) ∧
    ParseSampleBlock sampleLibrary (sampleBlock 1 [[7, 1], [255]] none) = .fault ∧
    ∀ err, ParseSampleBlock sampleLibrary (sampleBlock 1 [[7, 1], [255]] none) ≠ .returns none (some err) :=
  ⟨rfl, by decide, fun err h => by
    rw [show ParseSampleBlock sampleLibrary (sampleBlock 1 [[7, 1], [255]] none) = .fault by decide] at h
    cases h⟩

/-- C3, amended: for every block with height > 0, if an element fails a decode step or has
zero actions, `ParseSampleBlock` never returns a summary, whole or partial; and it returns
an error and no summary whenever no element before the failing one makes the call panic
(absent payload header, absent chaincode spec, no status byte at its index). -/
theorem ParseSampleBlock_failing_element (P : Library) (block : Block) (header : BlockHeader)
    (data : BlockData) (m : Nat) (d : Bytes)
    (hHeader : block.Header = some header) (hNumber : 0 < header.Number)
    (hData : block.Data = some data)
    (hm : data.Data.toList[m]? = some d)
    (hfail : (∃ step err, failedStep P d = some (step, err)) ∨ zeroActions P d) :
    (∀ s err, ParseSampleBlock P block ≠ .returns (some s) err) ∧
    ((∀ j dj, j < m → data.Data.toList[j]? = some dj → loopBody P block j dj ≠ .fault) →
      ∃ err, ParseSampleBlock P block = .returns none (some err)) := by
  have hexit : ∃ err, decodeSteps P d = .exit err := by
    rcases hfail with ⟨step, err, h⟩ | h
    · exact ⟨_, decodeSteps_of_failedStep P d step err h⟩
    · exact ⟨_, decodeSteps_of_zeroActions P d h⟩
  obtain ⟨err, herr⟩ := hexit
  have hbody : ∀ i, loopBody P block i d = .exit err := by
    intro i
    simp only [loopBody, herr]
  constructor
  · intro s e h
    obtain ⟨header2, data2, txList, -, -, hD, hloop, -⟩ := ParseSampleBlock_some P block s e h
    rw [hData] at hD
    cases hD
    obtain ⟨txs, -, -, hget⟩ := loop_next P block data.Data.toList 0 [] txList hloop
    obtain ⟨tx, -, hb⟩ := hget m d hm
    rw [hbody] at hb
    cases hb
  · intro hnofault
    obtain ⟨err2, h2⟩ := loop_exit_of_no_fault P block data.Data.toList 0 [] m d err hm
      (by simpa using hbody m) (by simpa using hnofault)
    exact ⟨err2, by rw [ParseSampleBlock_pos P block header data hHeader hNumber hData, h2]⟩

/-- A block of height 3 whose second element has a transaction that does not decode, and
whose first element is built without a panic. -/
theorem ParseSampleBlock_failing_element_witness :
    (∀ s err, ParseSampleBlock sampleLibrary (sampleBlock 3 [[7, 1], [9, 255]] (sampleMetadata [0, 0])) ≠
      .returns (some s) err) ∧
    ∃ err, ParseSampleBlock sampleLibrary (sampleBlock 3 [[7, 1], [9, 255]] (sampleMetadata [0, 0])) =
      .returns none (some err) :=
  have h := ParseSampleBlock_failing_element sampleLibrary
    (sampleBlock 3 [[7, 1], [9, 255]] (sampleMetadata [0, 0]))
    { Number := 3, PreviousHash := .mk [0, 171], DataHash := .mk [255, 16] }
    { Data := .mk [.mk [7, 1], .mk [9, 255]] } 1 (.mk [9, 255]) rfl (by decide) rfl rfl
    (Or.inl ⟨.transaction, ⟨"bad transaction"⟩, rfl⟩)
  ⟨h.1, h.2 (by
    intro j dj hj hget
    have hj0 : j = 0 := by omega
    subst hj0
    simp only [Slice.toList, List.getElem?_cons_zero, Option.some.injEq] at hget
    subst hget
    decide)⟩

/-! ### The errors of the decode steps -/

/-- The labels of the nine call sites of `fmt.Errorf` are pairwise distinct. -/
theorem DecodeStep.label_injective (s1 s2 : DecodeStep) (label : String)
    (h1 : s1.label = some label) (h2 : s2.label = some label) : s1 = s2 := by
  have h : s1.label = s2.label ∧ s1.label ≠ none := ⟨h1.trans h2.symm, by simp [h1]⟩
  revert h
  cases s1 <;> cases s2 <;> decide

/-- Every step but the transaction step returns the error of the decoder wrapped behind its
own label. -/
theorem decodeSteps_labelled (P : Library) (d : Bytes) (step : DecodeStep) (err : DecodeError)
    (h : failedStep P d = some (step, err)) (hstep : step ≠ .transaction) :
    ∃ label, step.label = some label ∧ decodeSteps P d = .exit (.errorf label (.decoder err)) ∧
      (∀ unwrapDecoder,
        (GoError.errorf label (.decoder err)).Unwrap unwrapDecoder = some (.decoder err)) ∧
      (GoError.errorf label (.decoder err)).Error = label ++ ": " ++ err.msg := by
  have h2 := decodeSteps_of_failedStep P d step err h
  cases step <;> simp_all [DecodeStep.label, GoError.Unwrap, GoError.Error]

/-- C4: the transaction step is the one decode step whose failure `ParseSampleBlock` does
not label. For every library, when `UnmarshalTransaction` fails with `err`, line 81 returns
`err` itself, the value the decoder returned: it is no `fmt.Errorf` value of this function
and carries none of its labels. Each of the nine other steps returns
`fmt.Errorf(label + ": %w", err)` with the label of its own call site, and those nine
labels are pairwise distinct. On a block of height 1 whose only element fails in
`UnmarshalTransaction`, the call returns the error of the decoder as it is. -/
theorem ParseSampleBlock_transaction_error_unlabelled :
    failedStep sampleLibrary (.mk [9, 255]) = some (.transaction, ⟨"bad transaction"⟩) ∧
    ParseSampleBlock sampleLibrary (sampleBlock 1 [[9, 255]] (sampleMetadata [0])) =
      .returns none (some (.decoder ⟨"bad transaction"⟩)) ∧
    (∀ (P : Library) (d : Bytes) (err : DecodeError),
      failedStep P d = some (.transaction, err) →
      decodeSteps P d = .exit (.decoder err) ∧
      ∀ label inner, decodeSteps P d ≠ .exit (.errorf label inner)) ∧
    (∀ (P : Library) (d : Bytes) (step : DecodeStep) (err : DecodeError),
      failedStep P d = some (step, err) → step ≠ .transaction →
      ∃ label, step.label = some label ∧
        decodeSteps P d = .exit (.errorf label (.decoder err))) ∧
    (∀ (s1 s2 : DecodeStep) (label : String),
      s1.label = some label → s2.label = some label → s1 = s2) ∧
    DecodeStep.transaction.label = none := by
  refine ⟨rfl, by decide, ?_, ?_, ?_, rfl⟩
  · intro P d err h
    have h2 : decodeSteps P d = .exit (.decoder err) :=
      decodeSteps_of_failedStep P d .transaction err h
    refine ⟨h2, ?_⟩
    intro label inner h3
    rw [h2] at h3
    cases h3
  · intro P d step err h hstep
    obtain ⟨label, h1, h2, -⟩ := decodeSteps_labelled P d step err h hstep
    exact ⟨label, h1, h2⟩
  · intro s1 s2 label h1 h2
    exact DecodeStep.label_injective s1 s2 label h1 h2

/-! ### A transaction without actions -/

/-- A text that starts with a character other than `a` is not the text of line 84. -/
theorem append_text_ne (label msg : String) (c : Char)
    (h : label.data.head? = some c) (hc : c ≠ 'a') :
    label ++ ": " ++ msg ≠ "at least one TransactionAction required" := by
  intro heq
  have h2 := congrArg (fun s => s.data.head?) heq
  simp only [String.data_append] at h2
  cases hl : label.data with
  | nil => rw [hl] at h; simp at h
  | cons x xs =>
    rw [hl] at h h2
    simp only [List.head?_cons, Option.some.injEq] at h
    subst h
    simp only [List.cons_append, List.head?_cons] at h2
    exact hc (by simpa using h2)

/-- The body of the loop gives a `Tx` exactly when the decode steps pass and the `Tx` is
built. -/
theorem loopBody_next (P : Library) (block : Block) (i : Nat) (d : Bytes) (tx : Tx)
    (h : loopBody P block i d = .next tx) :
    ∃ v, decodeSteps P d = .next v ∧ buildTx P block i v = .next tx := by
  simp only [loopBody] at h
  cases hd : decodeSteps P d with
  | next v => rw [hd] at h; exact ⟨v, rfl, h⟩
  | exit e => rw [hd] at h; simp at h
  | fault => rw [hd] at h; simp at h

/-- C5: for every block with height > 0, if the first failing element (every element before
it is appended as a `Tx`) decodes through the transaction step and its transaction has an
empty action list, `ParseSampleBlock` returns no summary and the error
`errors.New("at least one TransactionAction required")`. That error wraps nothing, and it
is never the error returned for the failure of one of the ten decode steps, with any
decoders and any element; for the nine labelled steps the texts differ as well. -/
theorem ParseSampleBlock_zero_actions (P : Library) (block : Block) (header : BlockHeader)
    (data : BlockData) (k : Nat) (d : Bytes)
    (hHeader : block.Header = some header) (hNumber : 0 < header.Number)
    (hData : block.Data = some data)
    (hk : data.Data.toList[k]? = some d)
    (hBefore : ∀ j dj, j < k → data.Data.toList[j]? = some dj →
      ∃ tx, loopBody P block j dj = .next tx)
    (hZero : zeroActions P d) :
    ParseSampleBlock P block = .returns none (some errNoActions) ∧
    errNoActions.Error = "at least one TransactionAction required" ∧
    (∀ unwrapDecoder, errNoActions.Unwrap unwrapDecoder = none) ∧
    (∀ (Q : Library) (d2 : Bytes) (step : DecodeStep) (err : DecodeError),
      failedStep Q d2 = some (step, err) →
      ∃ e, decodeSteps Q d2 = .exit e ∧ e ≠ errNoActions ∧
        (step ≠ .transaction → e.Error ≠ errNoActions.Error)) := by
  refine ⟨?_, rfl, fun _ => rfl, ?_⟩
  · have hbody : loopBody P block (0 + k) d = .exit errNoActions := by
      simp only [loopBody, decodeSteps_of_zeroActions P d hZero]
    have hloop := loop_exit P block data.Data.toList 0 [] k d errNoActions hk
      (by simpa using hBefore) hbody
    rw [ParseSampleBlock_pos P block header data hHeader hNumber hData, hloop]
  · intro Q d2 step err h
    refine ⟨_, decodeSteps_of_failedStep Q d2 step err h, ?_, ?_⟩
    · cases step <;> simp [DecodeStep.label, errNoActions]
    · intro hstep
      cases step <;>
        first
        | exact absurd rfl hstep
        | exact append_text_ne _ _ 'U' rfl (by decide)
        | exact append_text_ne _ _ 'G' rfl (by decide)

/-- A block of height 2 whose first element decodes and whose second element has a
transaction without actions. -/
theorem ParseSampleBlock_zero_actions_witness :
    ParseSampleBlock sampleLibrary (sampleBlock 2 [[7, 1], [9]] (sampleMetadata [0, 0])) =
      .returns none (some errNoActions) :=
  (ParseSampleBlock_zero_actions sampleLibrary (sampleBlock 2 [[7, 1], [9]] (sampleMetadata [0, 0]))
    { Number := 2, PreviousHash := .mk [0, 171], DataHash := .mk [255, 16] }
    { Data := .mk [.mk [7, 1], .mk [9]] } 1 (.mk [9]) rfl (by decide) rfl rfl
    (by
      intro j dj hj hget
      have hj0 : j = 0 := by omega
      subst hj0
      simp only [Slice.toList, List.getElem?_cons_zero, Option.some.injEq] at hget
      subst hget
      exact ⟨_, rfl⟩)
    ⟨_, _, _, _, _, _, _, rfl, rfl, rfl, rfl, rfl, rfl, rfl, rfl⟩).1

/-! ### The time stamp of the summary -/

theorem lastTimeStamp_mk (txs : List Tx) (tx : Tx) (old : Time)
    (h : txs[txs.length - 1]? = some tx) (hpos : 0 < txs.length) :
    lastTimeStamp (.mk txs) old = tx.TimeStamp := by
  simp only [lastTimeStamp, Slice.len_mk, Slice.toList_mk, hpos, if_true, h]

/-- C6: for every block that `ParseSampleBlock` decodes into a summary with N >= 1
transactions, the `TimeStamp` of the summary is the `TimeStamp` of transaction N-1, which
is `AsTime` of the time stamp in the channel header decoded from the last element of the
data section. -/
theorem ParseSampleBlock_timestamp (P : Library) (block : Block) (s : SampleBlock)
    (err : Option GoError) (h : ParseSampleBlock P block = .returns (some s) err)
    (hN : 1 ≤ s.TxList.len) :
    ∃ tx, s.TxList.toList[s.TxList.len - 1]? = some tx ∧ s.TimeStamp = tx.TimeStamp ∧
      ∃ data d v header, block.Data = some data ∧ data.Data.len = s.TxList.len ∧
        data.Data.toList[data.Data.len - 1]? = some d ∧ decodeSteps P d = .next v ∧
        v.payload.Header = some header ∧
        P.UnmarshalChannelHeader header.ChannelHeader = .ok v.channelHeader ∧
        tx.TimeStamp = P.AsTime v.channelHeader.Timestamp := by
  obtain ⟨header, data, txList, -, -, hD, hloop, -, hs⟩ := ParseSampleBlock_some P block s err h
  obtain ⟨txs, hmk, hlen, hget⟩ := loop_next P block data.Data.toList 0 [] txList hloop
  simp only [List.nil_append] at hmk
  subst hmk
  subst hs
  simp only [Slice.len_mk, Slice.toList_mk] at hN ⊢
  have hlast : txs.length - 1 < data.Data.toList.length := by omega
  obtain ⟨tx, htx, hbody⟩ := hget (txs.length - 1) _ (List.getElem?_eq_getElem hlast)
  obtain ⟨v, hv, hbuild⟩ := loopBody_next P block _ _ tx hbody
  obtain ⟨-, -, -, -, -, -, -, htime, -⟩ := buildTx_next P block _ v tx hbuild
  obtain ⟨-, envelope, hdr, signHeader, transaction, action0, rest, cpa, -, -, hh, -, -, hch, -⟩ :=
    decodeSteps_next P _ v hv
  refine ⟨tx, htx, lastTimeStamp_mk txs tx Time.zero htx (by omega), data, _, v, hdr, hD, ?_, ?_,
    hv, hh, hch, htime⟩
  · exact hlen.symm
  · rw [show data.Data.len = txs.length from hlen.symm]
    exact List.getElem?_eq_getElem hlast

/-- A block of height 7 with two elements: the time stamp of the summary is the one of
the second transaction. -/
theorem ParseSampleBlock_timestamp_witness :
    ∃ tx, (sampleSummary 7 [[7, 1], [9, 5, 2]] [0, 0]).TxList.toList[
        (sampleSummary 7 [[7, 1], [9, 5, 2]] [0, 0]).TxList.len - 1]? = some tx ∧
      (sampleSummary 7 [[7, 1], [9, 5, 2]] [0, 0]).TimeStamp = tx.TimeStamp :=
  let ⟨tx, h1, h2, _⟩ := ParseSampleBlock_timestamp sampleLibrary
    (sampleBlock 7 [[7, 1], [9, 5, 2]] (sampleMetadata [0, 0]))
    (sampleSummary 7 [[7, 1], [9, 5, 2]] [0, 0]) none (by decide) (by decide)
  ⟨tx, h1, h2⟩

/-! ### A block without elements -/

/-- C7, as stated, fails: a block of height 5 without data section has zero envelopes
(`block.GetData().GetData()` is empty), and the call returns nothing: it panics at line 51,
where `block.Data` is dereferenced, with every library. -/
theorem ParseSampleBlock_no_elements_counterexample :
    (sampleBlockNoData 5 none).GetData.len = 0 ∧
    (sampleBlockNoData 5 none).Header.map (fun h => h.Number) = some 5 ∧
    ParseSampleBlock sampleLibrary (sampleBlockNoData 5 none) = .fault ∧
    ∀ P : Library, ParseSampleBlock P (sampleBlockNoData 5 none) = .fault :=
  ⟨rfl, rfl, rfl, fun _ => rfl⟩

/-- C7, amended: for every block with height > 0 whose data section is present and holds
zero elements (a nil or an empty slice), `ParseSampleBlock` returns no error and a summary
whose transaction list is empty and whose time stamp is the zero value. The metadata is
not read: the outcome is the same with any metadata, absent or empty included. -/
theorem ParseSampleBlock_no_elements (P : Library) (block : Block) (header : BlockHeader)
    (data : BlockData)
    (hHeader : block.Header = some header) (hNumber : 0 < header.Number)
    (hData : block.Data = some data) (hEmpty : data.Data.len = 0) :
    ParseSampleBlock P block =
      .returns (some
        { BlockHeight := header.Number
          PreviousHash := EncodeToString header.PreviousHash
          DataHash := EncodeToString header.DataHash
          TimeStamp := Time.zero
          TxList := .mk [] }) none ∧
    ∀ metadata, ParseSampleBlock P { block with Metadata := metadata } = ParseSampleBlock P block := by
  have hnil : data.Data.toList = [] := List.length_eq_zero.mp hEmpty
  have hmain : ∀ b : Block, b.Header = some header → b.Data = some data →
      ParseSampleBlock P b =
        .returns (some
          { BlockHeight := header.Number
            PreviousHash := EncodeToString header.PreviousHash
            DataHash := EncodeToString header.DataHash
            TimeStamp := Time.zero
            TxList := .mk [] }) none := by
    intro b hH hD
    rw [ParseSampleBlock_pos P b header data hH hNumber hD, hnil]
    rfl
  refine ⟨hmain block hHeader hData, ?_⟩
  intro metadata
  rw [hmain block hHeader hData]
  exact hmain _ hHeader hData

/-- A block of height 5 with an empty data section and no metadata. -/
theorem ParseSampleBlock_no_elements_witness :
    ParseSampleBlock sampleLibrary (sampleBlock 5 [] none) =
      .returns (some
        { BlockHeight := 5
          PreviousHash := EncodeToString (.mk [0, 171])
          DataHash := EncodeToString (.mk [255, 16])
          TimeStamp := Time.zero
          TxList := .mk [] }) none :=
  (ParseSampleBlock_no_elements sampleLibrary (sampleBlock 5 [] none)
    { Number := 5, PreviousHash := .mk [0, 171], DataHash := .mk [255, 16] }
    { Data := .mk [] } rfl (by decide) rfl rfl).1

/-! ### The helper `byteArray2StrArray` -/

theorem byteArray2StrArray_foldl (ds : List Bytes) :
    ∀ l : List GoString,
      ds.foldl (fun args v => append args (GoString.ofBytes v)) (Slice.mk l) =
        Slice.mk (l ++ ds.map GoString.ofBytes) := by
  induction ds with
  | nil => intro l; simp
  | cons d rest ih =>
    intro l
    simp only [List.foldl_cons, append_mk, ih, List.map_cons, List.append_assoc,
      List.singleton_append]

/-- The result of `byteArray2StrArray` is never nil and holds `string(v)` for every `v`,
in order. -/
theorem byteArray2StrArray_eq (d : Slice Bytes) :
    byteArray2StrArray d = .mk (d.toList.map GoString.ofBytes) := by
  simp only [byteArray2StrArray, make, byteArray2StrArray_foldl, List.nil_append]

/-- C8: `byteArray2StrArray` (a total function) returns, for every list `d` of byte
buffers, a list that is not nil, has the length of `d`, and whose k-th element has exactly
the bytes of `d[k]`; for the nil and for the empty input it returns an empty list that is
not nil, and for the buffers "a" and "bc" the strings "a" and "bc". -/
theorem byteArray2StrArray_spec :
    (∀ d : Slice Bytes,
      (byteArray2StrArray d).isNil = false ∧
      (byteArray2StrArray d).len = d.len ∧
      ∀ (k : Nat) (v : Bytes), d.toList[k]? = some v →
        ∃ str : GoString, (byteArray2StrArray d).toList[k]? = some str ∧ str.bytes = v.toList) ∧
    byteArray2StrArray .nil = .mk [] ∧
    byteArray2StrArray (.mk []) = .mk [] ∧
    byteArray2StrArray (.mk [.mk [97], .mk [98, 99]]) = .mk [GoString.lit "a", GoString.lit "bc"] := by
  refine ⟨?_, rfl, rfl, by decide⟩
  intro d
  rw [byteArray2StrArray_eq]
  refine ⟨rfl, by simp [Slice.len, Slice.toList_mk], ?_⟩
  intro k v hk
  exact ⟨GoString.ofBytes v, by simp [Slice.toList_mk, List.getElem?_map, hk], rfl⟩

/-! ### The actions after the first -/

/-- C9, as stated, fails: the two blocks have the same header and metadata and one element
each; the two elements decode to the same payload header and to transactions with the same
first action, the second transaction having one more action. The summaries differ: the
field `Payload` of the `Tx` is the data section of the payload, which holds every action. -/
theorem ParseSampleBlock_later_actions_counterexample :
    (sampleUnmarshalPayload (.mk [7, 1])).map (fun p => p.Header) =
      (sampleUnmarshalPayload (.mk [7, 1, 2])).map (fun p => p.Header) ∧
    sampleUnmarshalTransaction (.mk [1]) =
      .ok { Actions := .mk [{ Header := .nil, Payload := .mk [1] }] } ∧
    sampleUnmarshalTransaction (.mk [1, 2]) =
      .ok { Actions := .mk [{ Header := .nil, Payload := .mk [1] }, { Header := .nil, Payload := .mk [2] }] } ∧
    ParseSampleBlock sampleLibrary (sampleBlock 1 [[7, 1]] (sampleMetadata [0])) ≠
      ParseSampleBlock sampleLibrary (sampleBlock 1 [[7, 1, 2]] (sampleMetadata [0])) ∧
    (sampleSummary 1 [[7, 1]] [0]).TxList.toList.map (fun tx => tx.Payload) = [.mk [1]] ∧
    (sampleSummary 1 [[7, 1, 2]] [0]).TxList.toList.map (fun tx => tx.Payload) = [.mk [1, 2]] := by
  refine ⟨rfl, rfl, rfl, by decide, by decide, by decide⟩

theorem decodeSteps_first_action (P : Library) (T : Bytes → Except DecodeError Transaction)
    (hT : ∀ b, sameFirstAction (P.UnmarshalTransaction b) (T b)) (d : Bytes) :
    decodeSteps { P with UnmarshalTransaction := T } d = decodeSteps P d := by
  cases h1 : P.UnmarshalEnvelope d with
  | error e => simp only [decodeSteps, h1]
  | ok envelope =>
  cases h2 : P.UnmarshalPayload envelope.Payload with
  | error e => simp only [decodeSteps, h1, h2]
  | ok payload =>
  cases h3 : payload.Header with
  | none => simp only [decodeSteps, h1, h2, h3]
  | some header =>
  cases h4 : P.UnmarshalSignatureHeader header.SignatureHeader with
  | error e => simp only [decodeSteps, h1, h2, h3, h4]
  | ok signHeader =>
  cases h5 : P.UnmarshalSerializedIdentity signHeader.Creator with
  | error e => simp only [decodeSteps, h1, h2, h3, h4, h5]
  | ok identity =>
  cases h6 : P.UnmarshalChannelHeader header.ChannelHeader with
  | error e => simp only [decodeSteps, h1, h2, h3, h4, h5, h6]
  | ok channelHeader =>
  have hsame := hT payload.Data
  cases hP : P.UnmarshalTransaction payload.Data with
  | error e =>
    cases hQ : T payload.Data with
    | error e2 =>
      rw [hP, hQ] at hsame
      simp only [sameFirstAction] at hsame
      simp only [decodeSteps, h1, h2, h3, h4, h5, h6, hP, hQ, hsame]
    | ok t2 => rw [hP, hQ] at hsame; simp [sameFirstAction] at hsame
  | ok t1 =>
    cases hQ : T payload.Data with
    | error e2 => rw [hP, hQ] at hsame; simp [sameFirstAction] at hsame
    | ok t2 =>
      rw [hP, hQ] at hsame
      simp only [sameFirstAction] at hsame
      have hget : t2.Actions.toList[0]? = t1.Actions.toList[0]? := by
        rw [← List.head?_eq_getElem?, ← List.head?_eq_getElem?]
        exact hsame.symm
      have hlen : (t2.Actions.len = 0) = (t1.Actions.len = 0) := by
        simp only [Slice.len]
        cases hl1 : t1.Actions.toList <;> cases hl2 : t2.Actions.toList <;>
          simp_all
      simp only [decodeSteps, h1, h2, h3, h4, h5, h6, hP, hQ, hlen, hget]

theorem loop_first_action (P : Library) (T : Bytes → Except DecodeError Transaction)
    (hT : ∀ b, sameFirstAction (P.UnmarshalTransaction b) (T b))
    (b1 b2 : Block) (hM : b1.GetMetadata = b2.GetMetadata) :
    ∀ (ds : List Bytes) (i : Nat) (txList : Slice Tx),
      loop { P with UnmarshalTransaction := T } b1 i ds txList = loop P b2 i ds txList := by
  intro ds
  induction ds with
  | nil => intro i txList; rfl
  | cons d rest ih =>
    intro i txList
    have hbody : loopBody { P with UnmarshalTransaction := T } b1 i d = loopBody P b2 i d := by
      simp only [loopBody, decodeSteps_first_action P T hT d, buildTx, hM]
    simp only [loop, hbody, ih]

/-- C9, amended: of the action list of a decoded transaction, `ParseSampleBlock` reads
whether it is empty and its first action, nothing else: with a transaction decoder whose
results differ from those of `P` at most in the actions at the indices 1 and above (at
least one action in both, or none in both), the outcome on every block, summary, error or
panic, is the same. -/
theorem ParseSampleBlock_first_action_only (P : Library)
    (T : Bytes → Except DecodeError Transaction)
    (hT : ∀ b, sameFirstAction (P.UnmarshalTransaction b) (T b)) (block : Block) :
    ParseSampleBlock { P with UnmarshalTransaction := T } block = ParseSampleBlock P block := by
  simp only [ParseSampleBlock, loop_first_action P T hT block block rfl]

/-- The small format, and the small format with a transaction decoder that keeps the first
action only, on a block whose element has three actions. -/
theorem ParseSampleBlock_first_action_only_witness :
    ParseSampleBlock sampleLibraryFirstAction (sampleBlock 4 [[7, 1, 2, 3]] (sampleMetadata [0])) =
      ParseSampleBlock sampleLibrary (sampleBlock 4 [[7, 1, 2, 3]] (sampleMetadata [0])) :=
  ParseSampleBlock_first_action_only sampleLibrary sampleLibraryFirstAction.UnmarshalTransaction
    (by
      intro b
      simp only [sampleLibrary, sampleLibraryFirstAction, sampleUnmarshalTransaction]
      split
      · simp [sameFirstAction]
      · simp only [sameFirstAction, Slice.toList_mk]
        cases b.toList <;> simp)
    (sampleBlock 4 [[7, 1, 2, 3]] (sampleMetadata [0]))

/-- With any decoders, the field `Payload` of a `Tx` holds the bytes its transaction was
decoded from: two elements whose decoded transactions differ give `Tx` records that
differ in `Payload`. -/
theorem loopBody_payload_transaction (P : Library) (b1 b2 : Block) (i j : Nat) (d1 d2 : Bytes)
    (tx1 tx2 : Tx) (h1 : loopBody P b1 i d1 = .next tx1) (h2 : loopBody P b2 j d2 = .next tx2) :
    ∃ t1 t2, P.UnmarshalTransaction tx1.Payload = .ok t1 ∧
      P.UnmarshalTransaction tx2.Payload = .ok t2 ∧ (t1 ≠ t2 → tx1.Payload ≠ tx2.Payload) := by
  obtain ⟨v1, hv1, hb1⟩ := loopBody_next P b1 i d1 tx1 h1
  obtain ⟨v2, hv2, hb2⟩ := loopBody_next P b2 j d2 tx2 h2
  obtain ⟨-, -, -, -, -, -, -, -, hp1⟩ := buildTx_next P b1 i v1 tx1 hb1
  obtain ⟨-, -, -, -, -, -, -, -, hp2⟩ := buildTx_next P b2 j v2 tx2 hb2
  obtain ⟨-, -, -, -, t1, -, -, -, -, -, -, -, -, -, ht1, -⟩ := decodeSteps_next P d1 v1 hv1
  obtain ⟨-, -, -, -, t2, -, -, -, -, -, -, -, -, -, ht2, -⟩ := decodeSteps_next P d2 v2 hv2
  rw [← hp1] at ht1
  rw [← hp2] at ht2
  refine ⟨t1, t2, ht1, ht2, ?_⟩
  intro hne heq
  rw [heq, ht2] at ht1
  exact hne (by cases ht1; rfl)

/-! ### The header fields of the summary -/

theorem hextable_spec :
    ∀ n : Fin 16, fromHexChar (hextable.getD n.val 0) = some n.val ∧
      isLowerHexChar (hextable.getD n.val 0) = true := by
  decide

theorem byte_of_nibbles (v : Byte) : (Fin.ofNat (v.val / 16 * 16 + v.val % 16) : Byte) = v := by
  apply Fin.ext
  have h := v.isLt
  simp only [Fin.ofNat, Fin.val_mk]
  omega

theorem decodeHexChars_encode (l : List Byte) :
    decodeHexChars
      (l.flatMap fun v => [hextable.getD (v.val / 16) 0, hextable.getD (v.val % 16) 0]) = some l := by
  induction l with
  | nil => rfl
  | cons v rest ih =>
    have hhi := (hextable_spec ⟨v.val / 16, by have := v.isLt; omega⟩).1
    have hlo := (hextable_spec ⟨v.val % 16, by omega⟩).1
    simp only [Fin.val_mk] at hhi hlo
    show decodeHexChars (hextable.getD (v.val / 16) 0 :: hextable.getD (v.val % 16) 0 ::
      (rest.flatMap fun v => [hextable.getD (v.val / 16) 0, hextable.getD (v.val % 16) 0])) = _
    rw [decodeHexChars, hhi, hlo, ih]
    simp only [byte_of_nibbles]

/-- The text `hex.EncodeToString` gives: two characters per byte, all of them digits or
the letters `a` to `f`, and `hex.DecodeString` reads the bytes back. -/
theorem EncodeToString_spec (src : Bytes) :
    (EncodeToString src).bytes.length = 2 * src.len ∧
    (∀ c ∈ (EncodeToString src).bytes, isLowerHexChar c = true) ∧
    DecodeString (EncodeToString src) = some src.toList := by
  refine ⟨?_, ?_, ?_⟩
  · simp only [EncodeToString, Slice.len]
    induction src.toList with
    | nil => rfl
    | cons v rest ih => simp only [List.flatMap_cons, List.length_append, List.length_cons,
        List.length_nil, ih]; omega
  · intro c hc
    simp only [EncodeToString, List.mem_flatMap, List.mem_cons, List.mem_singleton,
      List.not_mem_nil, or_false] at hc
    obtain ⟨v, -, rfl | rfl⟩ := hc
    · exact (hextable_spec ⟨v.val / 16, by have := v.isLt; omega⟩).2
    · exact (hextable_spec ⟨v.val % 16, by omega⟩).2
  · exact decodeHexChars_encode src.toList

/-- C10: for every block that `ParseSampleBlock` decodes into a summary, `BlockHeight` is
the number of the header, and `PreviousHash` and `DataHash` are the hexadecimal texts of
the previous-hash and data-hash bytes of the header: lowercase, twice as long as the
bytes, and decoding back to the bytes. -/
theorem ParseSampleBlock_header_fields (P : Library) (block : Block) (s : SampleBlock)
    (err : Option GoError) (h : ParseSampleBlock P block = .returns (some s) err) :
    ∃ header, block.Header = some header ∧
      s.BlockHeight = header.Number ∧
      s.PreviousHash = EncodeToString header.PreviousHash ∧
      s.DataHash = EncodeToString header.DataHash ∧
      s.PreviousHash.bytes.length = 2 * header.PreviousHash.len ∧
      s.DataHash.bytes.length = 2 * header.DataHash.len ∧
      (∀ c ∈ s.PreviousHash.bytes, isLowerHexChar c = true) ∧
      (∀ c ∈ s.DataHash.bytes, isLowerHexChar c = true) ∧
      DecodeString s.PreviousHash = some header.PreviousHash.toList ∧
      DecodeString s.DataHash = some header.DataHash.toList := by
  obtain ⟨header, data, txList, hH, -, -, -, -, hs⟩ := ParseSampleBlock_some P block s err h
  subst hs
  obtain ⟨p1, p2, p3⟩ := EncodeToString_spec header.PreviousHash
  obtain ⟨q1, q2, q3⟩ := EncodeToString_spec header.DataHash
  exact ⟨header, hH, rfl, rfl, rfl, p1, q1, p2, q2, p3, q3⟩

/-- A block of height 7 with the previous hash 00 ab and the data hash ff 10. -/
theorem ParseSampleBlock_header_fields_witness :
    (sampleSummary 7 [[7, 1]] [0]).BlockHeight = 7 ∧
    (sampleSummary 7 [[7, 1]] [0]).PreviousHash = GoString.lit "00ab" ∧
    (sampleSummary 7 [[7, 1]] [0]).DataHash = GoString.lit "ff10" ∧
    DecodeString (sampleSummary 7 [[7, 1]] [0]).PreviousHash = some [0, 171] ∧
    DecodeString (sampleSummary 7 [[7, 1]] [0]).DataHash = some [255, 16] :=
  let ⟨header, hH, h1, h2, h3, _, _, _, _, h4, h5⟩ :=
    ParseSampleBlock_header_fields sampleLibrary (sampleBlock 7 [[7, 1]] (sampleMetadata [0]))
      (sampleSummary 7 [[7, 1]] [0]) none (by decide)
  have hh : header = { Number := 7, PreviousHash := .mk [0, 171], DataHash := .mk [255, 16] } :=
    (Option.some.inj hH).symm
  ⟨by rw [h1, hh], by rw [h2, hh]; decide, by rw [h3, hh]; decide, by rw [h4, hh]; rfl,
    by rw [h5, hh]; rfl⟩

/-! ### The fields of a `Tx` -/

/-- The local variables left by the decode steps come from the chain of decoders. -/
theorem decodeSteps_decodedFrom (P : Library) (d : Bytes) (v : Decoded)
    (h : decodeSteps P d = .next v) : DecodedFrom P d v :=
  (decodeSteps_next P d v h).2

/-- Every field of the `Tx` built at lines 109-127. -/
theorem buildTx_fields (P : Library) (block : Block) (i : Nat) (v : Decoded) (tx : Tx)
    (h : buildTx P block i v = .next tx) :
    ∃ filter code spec,
      block.GetMetadata.toList[BlockMetadataIndex_TRANSACTIONS_FILTER]? = some filter ∧
      filter.toList[i]? = some code ∧
      v.chaincodeInvocationSpec.ChaincodeSpec = some spec ∧
      tx =
        { Id := v.channelHeader.TxId
          ChannelId := v.channelHeader.ChannelId
          TimeStamp := P.AsTime v.channelHeader.Timestamp
          HeaderType := v.channelHeader.Type_
          ValidationCode := (code.val : Int)
          ChaincodeType := spec.Type_
          ChaincodeName := ChaincodeID.GetName spec.ChaincodeId
          ChaincodeVersion := ChaincodeID.GetVersion spec.ChaincodeId
          ChainCodeInput := byteArray2StrArray (ChaincodeInput.GetArgs spec.Input)
          TransientMap := v.chaincodeProposalPayload.TransientMap
          IsInit := ChaincodeInput.GetIsInit spec.Input
          Response := v.chaincodeAction.Response
          EventName := v.chaincodeEvent.EventName
          EventInput := v.chaincodeEvent.Payload
          MspId := v.identity.Mspid
          MspIdBytes := GoString.ofBytes v.identity.IdBytes
          Payload := v.payload.Data } := by
  simp only [buildTx] at h
  repeat' split at h
  all_goals first
    | (simp only [Step.next.injEq] at h
       subst h
       simp_all [ChaincodeSpec.GetType, ChaincodeSpec.GetInput])
    | simp at h

/-- C11: for every block `ParseSampleBlock` decodes into a summary and every k, transaction
k is assembled from element k of the data section (same order, same number), with exactly
these fields: `Id`, `ChannelId`, `TimeStamp` (through `AsTime`) and `HeaderType` from the
channel header of element k; `MspId` and `MspIdBytes` from the creator identity;
`ChaincodeType`, `ChaincodeName`, `ChaincodeVersion`, `IsInit` and `ChainCodeInput`
(`byteArray2StrArray` of the args) from the chaincode spec of the invocation spec;
`TransientMap` from the chaincode proposal payload; `Response` from the chaincode action;
`EventName` and `EventInput` from the decoded chaincode event, empty when the event
carries empty fields; `Payload` the data bytes of the decoded payload; `ValidationCode`
the status byte k. -/
theorem ParseSampleBlock_tx_fields (P : Library) (block : Block) (s : SampleBlock)
    (err : Option GoError) (h : ParseSampleBlock P block = .returns (some s) err) :
    ∃ data, block.Data = some data ∧ s.TxList.len = data.Data.len ∧
      ∀ (k : Nat) (d : Bytes), data.Data.toList[k]? = some d →
        ∃ (v : Decoded) (spec : ChaincodeSpec) (filter : Bytes) (code : Byte) (tx : Tx),
          decodeSteps P d = .next v ∧ DecodedFrom P d v ∧
          v.chaincodeInvocationSpec.ChaincodeSpec = some spec ∧
          block.GetMetadata.toList[BlockMetadataIndex_TRANSACTIONS_FILTER]? = some filter ∧
          filter.toList[k]? = some code ∧
          s.TxList.toList[k]? = some tx ∧
          tx =
            { Id := v.channelHeader.TxId
              ChannelId := v.channelHeader.ChannelId
              TimeStamp := P.AsTime v.channelHeader.Timestamp
              HeaderType := v.channelHeader.Type_
              ValidationCode := (code.val : Int)
              ChaincodeType := spec.Type_
              ChaincodeName := ChaincodeID.GetName spec.ChaincodeId
              ChaincodeVersion := ChaincodeID.GetVersion spec.ChaincodeId
              ChainCodeInput := byteArray2StrArray (ChaincodeInput.GetArgs spec.Input)
              TransientMap := v.chaincodeProposalPayload.TransientMap
              IsInit := ChaincodeInput.GetIsInit spec.Input
              Response := v.chaincodeAction.Response
              EventName := v.chaincodeEvent.EventName
              EventInput := v.chaincodeEvent.Payload
              MspId := v.identity.Mspid
              MspIdBytes := GoString.ofBytes v.identity.IdBytes
              Payload := v.payload.Data } ∧
          (v.chaincodeEvent = { EventName := ⟨[]⟩, Payload := .nil } →
            tx.EventName = ⟨[]⟩ ∧ tx.EventInput = .nil) := by
  obtain ⟨header, data, txList, -, -, hD, hloop, -, hs⟩ := ParseSampleBlock_some P block s err h
  obtain ⟨txs, hmk, hlen, hget⟩ := loop_next P block data.Data.toList 0 [] txList hloop
  simp only [List.nil_append] at hmk
  subst hmk
  subst hs
  refine ⟨data, hD, hlen, ?_⟩
  intro k d hk
  obtain ⟨tx, htx, hbody⟩ := hget k d hk
  obtain ⟨v, hv, hbuild⟩ := loopBody_next P block _ d tx hbody
  rw [Nat.zero_add] at hbuild
  obtain ⟨filter, code, spec, hf, hc, hspec, htxeq⟩ := buildTx_fields P block k v tx hbuild
  refine ⟨v, spec, filter, code, tx, hv, decodeSteps_decodedFrom P d v hv, hspec, hf, hc, htx,
    htxeq, ?_⟩
  intro hev
  rw [htxeq]
  simp only [hev, and_self]

/-- The scenario of a block of height 7 with two elements and the status bytes 0, 0, the
second element raising the event "transfer" with the payload 1, 2, 3: the second
transaction has that event name and that event input, the chaincode name "mycc" and the
validation code 0. -/
theorem ParseSampleBlock_tx_fields_witness :
    (scenarioSummary 7 [[7, 0], [7, 1]] [0, 0]).BlockHeight = 7 ∧
    (scenarioSummary 7 [[7, 0], [7, 1]] [0, 0]).TxList.len = 2 ∧
    ∃ tx, (scenarioSummary 7 [[7, 0], [7, 1]] [0, 0]).TxList.toList[1]? = some tx ∧
      tx.EventName = GoString.lit "transfer" ∧ tx.EventInput = .mk [1, 2, 3] ∧
      tx.ChaincodeName = GoString.lit "mycc" ∧ tx.ValidationCode = 0 := by
  obtain ⟨data, hD, hlen, hall⟩ := ParseSampleBlock_tx_fields scenarioLibrary
    (sampleBlock 7 [[7, 0], [7, 1]] (sampleMetadata [0, 0]))
    (scenarioSummary 7 [[7, 0], [7, 1]] [0, 0]) none (by decide)
  have hdata : data = { Data := .mk [.mk [7, 0], .mk [7, 1]] } := (Option.some.inj hD).symm
  subst hdata
  obtain ⟨v, spec, filter, code, tx, hv, -, hspec, hf, hc, htx, htxeq, -⟩ :=
    hall 1 (.mk [7, 1]) rfl
  have hv2 : decodeSteps scenarioLibrary (.mk [7, 1]) = .next
      { payload := { Header := some { ChannelHeader := .mk [7], SignatureHeader := .mk [7] },
                     Data := .mk [1] }
        identity := { Mspid := GoString.lit "Org1MSP", IdBytes := .mk [7] }
        channelHeader := { Type_ := 3, Timestamp := some ⟨7, 0⟩,
                           ChannelId := GoString.lit "mychannel", TxId := ⟨[7]⟩ }
        chaincodeAction := { Events := .mk [1], Response := some ⟨200, ⟨[]⟩, .nil⟩ }
        chaincodeEvent := { EventName := GoString.lit "transfer", Payload := .mk [1, 2, 3] }
        chaincodeProposalPayload := { Input := .mk [1], TransientMap := none }
        chaincodeInvocationSpec := ⟨some
          ⟨1, some ⟨GoString.lit "mycc", GoString.lit "1.0"⟩,
            some ⟨.mk [.mk (GoString.lit "invoke").bytes, .mk [1]], false⟩⟩⟩ } := by
    decide
  rw [hv2] at hv
  simp only [Step.next.injEq] at hv
  subst hv
  simp only [Option.some.injEq] at hspec
  subst hspec
  have hfilter : filter = .mk [0, 0] := (Option.some.inj hf).symm
  subst hfilter
  have hcode : code = 0 := (Option.some.inj hc).symm
  subst hcode
  refine ⟨by decide, hlen, tx, htx, ?_⟩
  rw [htxeq]
  exact ⟨rfl, rfl, rfl, rfl⟩

/-! ### Exactly one result -/

/-- C15: for every block with height > 0 on which `ParseSampleBlock` returns, exactly one
of the two results is present: a summary and no error, or an error and no summary. The
outcome (nil, nil) occurs only for a block of height 0, with any decoders. -/
theorem ParseSampleBlock_one_result (P : Library) (block : Block) (header : BlockHeader)
    (resp : Option SampleBlock) (err : Option GoError)
    (hHeader : block.Header = some header) (hNumber : 0 < header.Number)
    (h : ParseSampleBlock P block = .returns resp err) :
    (((∃ s, resp = some s) ∧ err = none) ∨ (resp = none ∧ ∃ e, err = some e)) ∧
    (∀ (Q : Library) (b : Block), ParseSampleBlock Q b = .returns none none →
      ∃ hd, b.Header = some hd ∧ hd.Number = 0) := by
  constructor
  · cases hD : block.Data with
    | none =>
      have hn : ¬ header.Number ≤ 0 := by omega
      simp [ParseSampleBlock, hHeader, hn, hD] at h
    | some data =>
      rw [ParseSampleBlock_pos P block header data hHeader hNumber hD] at h
      cases hl : loop P block 0 data.Data.toList (.mk []) with
      | fault => rw [hl] at h; simp at h
      | exit e =>
        rw [hl] at h
        simp only [Outcome.returns.injEq] at h
        exact Or.inr ⟨h.1.symm, e, h.2.symm⟩
      | next txList =>
        rw [hl] at h
        simp only [Outcome.returns.injEq] at h
        exact Or.inl ⟨⟨_, h.1.symm⟩, h.2.symm⟩
  · intro Q b hb
    cases hH : b.Header with
    | none => simp [ParseSampleBlock, hH] at hb
    | some hd =>
      refine ⟨hd, rfl, ?_⟩
      by_contra hne
      have hpos : 0 < hd.Number := Nat.pos_of_ne_zero hne
      cases hD : b.Data with
      | none =>
        have hn : ¬ hd.Number ≤ 0 := by omega
        simp [ParseSampleBlock, hH, hn, hD] at hb
      | some data =>
        rw [ParseSampleBlock_pos Q b hd data hH hpos hD] at hb
        cases hl : loop Q b 0 data.Data.toList (.mk []) with
        | fault => rw [hl] at hb; simp at hb
        | exit e => rw [hl] at hb; simp at hb
        | next txList => rw [hl] at hb; simp at hb

/-- A block of height 2 whose second element has no action: an error and no summary. -/
theorem ParseSampleBlock_one_result_witness :
    ((∃ s, (none : Option SampleBlock) = some s) ∧ some errNoActions = none) ∨
      ((none : Option SampleBlock) = none ∧ ∃ e, some errNoActions = some e) :=
  (ParseSampleBlock_one_result sampleLibrary (sampleBlock 2 [[7, 1], [9]] (sampleMetadata [0, 0]))
    { Number := 2, PreviousHash := .mk [0, 171], DataHash := .mk [255, 16] }
    none (some errNoActions) rfl (by decide) (by decide)).1

/-! ### The panics -/

/-- The decode steps panic only at line 64, on a decoded payload without header. -/
theorem decodeSteps_fault (P : Library) (d : Bytes) (h : decodeSteps P d = .fault) :
    ∃ p, payloadOf P d = some p ∧ p.Header = none := by
  simp only [decodeSteps] at h
  simp only [payloadOf, envelopeOf]
  repeat' split at h
  all_goals simp_all [okOf, Slice.len]

/-- The loop does not panic when no element makes its body panic. -/
theorem loop_no_fault (P : Library) (block : Block) :
    ∀ (ds : List Bytes) (i : Nat) (txList : Slice Tx),
      (∀ k d, ds[k]? = some d → loopBody P block (i + k) d ≠ .fault) →
      loop P block i ds txList ≠ .fault := by
  intro ds
  induction ds with
  | nil => intro i txList _ h; simp [loop] at h
  | cons d rest ih =>
    intro i txList hall
    have h0 := hall 0 d (by simp)
    rw [show i + 0 = i from rfl] at h0
    simp only [loop]
    cases hb : loopBody P block i d with
    | next tx =>
      simp only
      apply ih
      intro k dk hk
      have := hall (k + 1) dk (by simpa using hk)
      have e : i + (k + 1) = i + 1 + k := by omega
      rw [e] at this
      exact this
    | exit e => simp
    | fault => exact absurd hb h0

/-- C14, as stated, fails: a block of height 5 without data section has no envelope, its
metadata has an entry of one status byte at the index `TRANSACTIONS_FILTER`, and no
payload or invocation spec is decoded from it, so every condition of the claim holds; the
call panics at line 51, where `block.Data` is dereferenced, with every library. -/
theorem ParseSampleBlock_no_panic_counterexample :
    (sampleBlockNoData 5 (sampleMetadata [0])).GetData.len = 0 ∧
    (sampleBlockNoData 5 (sampleMetadata [0])).GetMetadata.toList[
        BlockMetadataIndex_TRANSACTIONS_FILTER]? = some (.mk [0]) ∧
    (sampleBlockNoData 5 (sampleMetadata [0])).GetData.len ≤ (Slice.mk [(0 : Byte)]).len ∧
    (sampleBlockNoData 5 (sampleMetadata [0])).GetData.toList = [] ∧
    ParseSampleBlock sampleLibrary (sampleBlockNoData 5 (sampleMetadata [0])) = .fault ∧
    ∀ P : Library, ParseSampleBlock P (sampleBlockNoData 5 (sampleMetadata [0])) = .fault :=
  ⟨rfl, rfl, by decide, rfl, rfl, fun _ => rfl⟩

/-- C14, amended: for every block with height > 0 whose data section is present, whose
metadata has at the index `TRANSACTIONS_FILTER` an entry holding at least as many status
bytes as the data section has elements, whose decoded payloads carry a header and whose
decoded invocation specs carry a chaincode spec, no panic is reachable: for every element
the decode steps do not panic, the status byte at its index is there and the `Tx` is
built; the index expression `transaction.Actions[0]` of line 87 finds its element
whenever the length test of line 83 lets control reach it; and the call returns a summary
and no error, or an error and no summary. -/
theorem ParseSampleBlock_no_panic (P : Library) (block : Block) (header : BlockHeader)
    (data : BlockData) (filter : Bytes)
    (hHeader : block.Header = some header) (hNumber : 0 < header.Number)
    (hData : block.Data = some data)
    (hFilter : block.GetMetadata.toList[BlockMetadataIndex_TRANSACTIONS_FILTER]? = some filter)
    (hLen : data.Data.len ≤ filter.len)
    (hPayload : ∀ d ∈ data.Data.toList, ∀ p, payloadOf P d = some p → p.Header ≠ none)
    (hSpec : ∀ d ∈ data.Data.toList, ∀ v, decodeSteps P d = .next v →
      v.chaincodeInvocationSpec.ChaincodeSpec ≠ none) :
    (∀ (k : Nat) (d : Bytes), data.Data.toList[k]? = some d →
      decodeSteps P d ≠ .fault ∧ loopBody P block k d ≠ .fault ∧
      ∀ v, decodeSteps P d = .next v →
        ∃ code tx, filter.toList[k]? = some code ∧ buildTx P block k v = .next tx) ∧
    (∀ d ∈ data.Data.toList, ∀ transaction, transactionOf P d = some transaction →
      transaction.Actions.len ≠ 0 → ∃ action0, transaction.Actions.toList[0]? = some action0) ∧
    ((∃ s, ParseSampleBlock P block = .returns (some s) none) ∨
      (∃ e, ParseSampleBlock P block = .returns none (some e))) := by
  have hel : ∀ (k : Nat) (d : Bytes), data.Data.toList[k]? = some d →
      decodeSteps P d ≠ .fault ∧ loopBody P block k d ≠ .fault ∧
      ∀ v, decodeSteps P d = .next v →
        ∃ code tx, filter.toList[k]? = some code ∧ buildTx P block k v = .next tx := by
    intro k d hk
    have hmem : d ∈ data.Data.toList := List.getElem?_mem hk
    have hklt : k < data.Data.toList.length := (List.getElem?_eq_some_iff.mp hk).1
    have hk2 : k < filter.toList.length := by
      simp only [Slice.len] at hLen
      omega
    have hcode : filter.toList[k]? = some (filter.toList[k]) := List.getElem?_eq_getElem hk2
    have hdec : decodeSteps P d ≠ .fault := by
      intro hf
      obtain ⟨p, hp, hnone⟩ := decodeSteps_fault P d hf
      exact hPayload d hmem p hp hnone
    have hbuild : ∀ v, decodeSteps P d = .next v →
        ∃ code tx, filter.toList[k]? = some code ∧ buildTx P block k v = .next tx := by
      intro v hv
      obtain ⟨spec, hs⟩ := Option.ne_none_iff_exists'.mp (hSpec d hmem v hv)
      obtain ⟨tx, htx⟩ := buildTx_of_present P block k v filter _ spec hFilter hcode hs
      exact ⟨_, tx, hcode, htx⟩
    refine ⟨hdec, ?_, hbuild⟩
    intro hf
    cases hd : decodeSteps P d with
    | next v =>
      obtain ⟨code, tx, -, htx⟩ := hbuild v hd
      simp only [loopBody, hd, htx] at hf
      cases hf
    | exit e => simp only [loopBody, hd] at hf; cases hf
    | fault => exact hdec hd
  refine ⟨hel, ?_, ?_⟩
  · intro d _ transaction _ hlen
    cases hl : transaction.Actions.toList with
    | nil => simp [Slice.len, hl] at hlen
    | cons a rest => exact ⟨a, by simp⟩
  have hloop := loop_no_fault P block data.Data.toList 0 (.mk [])
    (fun k d hk => by rw [Nat.zero_add]; exact (hel k d hk).2.1)
  rw [ParseSampleBlock_pos P block header data hHeader hNumber hData]
  cases hl : loop P block 0 data.Data.toList (.mk []) with
  | fault => exact absurd hl hloop
  | exit e => exact Or.inr ⟨e, rfl⟩
  | next txList => exact Or.inl ⟨_, rfl⟩

/-- A block of height 3 with two elements and two status bytes, the second element with a
transaction that does not decode. -/
theorem ParseSampleBlock_no_panic_witness :
    (∃ s, ParseSampleBlock sampleLibrary (sampleBlock 3 [[7, 1], [9, 255]] (sampleMetadata [0, 0])) =
      .returns (some s) none) ∨
    (∃ e, ParseSampleBlock sampleLibrary (sampleBlock 3 [[7, 1], [9, 255]] (sampleMetadata [0, 0])) =
      .returns none (some e)) :=
  (ParseSampleBlock_no_panic sampleLibrary (sampleBlock 3 [[7, 1], [9, 255]] (sampleMetadata [0, 0]))
    { Number := 3, PreviousHash := .mk [0, 171], DataHash := .mk [255, 16] }
    { Data := .mk [.mk [7, 1], .mk [9, 255]] } (.mk [0, 0]) rfl (by decide) rfl rfl (by decide)
    (by
      intro d hd p hp
      simp only [Slice.toList_mk, List.mem_cons, List.mem_singleton, List.not_mem_nil, or_false] at hd
      rcases hd with rfl | rfl
      · have : payloadOf sampleLibrary (.mk [7, 1]) =
            some { Header := some { ChannelHeader := .mk [7], SignatureHeader := .mk [7] },
                   Data := .mk [1] } := by decide
        rw [this] at hp
        cases hp
        simp
      · have : payloadOf sampleLibrary (.mk [9, 255]) =
            some { Header := some { ChannelHeader := .mk [9], SignatureHeader := .mk [9] },
                   Data := .mk [255] } := by decide
        rw [this] at hp
        cases hp
        simp)
    (by
      intro d hd v hv
      simp only [Slice.toList_mk, List.mem_cons, List.mem_singleton, List.not_mem_nil, or_false] at hd
      rcases hd with rfl | rfl
      · have : decodeSteps sampleLibrary (.mk [7, 1]) ≠ .fault ∧
            ∀ w, decodeSteps sampleLibrary (.mk [7, 1]) = .next w →
              w.chaincodeInvocationSpec.ChaincodeSpec ≠ none := by
          refine ⟨by decide, ?_⟩
          intro w hw
          have hw2 : (match decodeSteps sampleLibrary (.mk [7, 1]) with
            | .next x => x.chaincodeInvocationSpec.ChaincodeSpec.isSome
            | _ => false) = true := by decide
          rw [hw] at hw2
          intro hn
          simp only [hn, Option.isSome_none] at hw2
          cases hw2
        exact this.2 v hv
      · have : decodeSteps sampleLibrary (.mk [9, 255]) =
            .exit (.decoder ⟨"bad transaction"⟩) := by decide
        rw [this] at hv
        cases hv)).2.2

/-! ### The first failure -/

theorem Check.index_injective (c1 c2 : Check) (h : c1.index = c2.index) : c1 = c2 := by
  revert h
  cases c1 with
  | noActions =>
    cases c2 with
    | noActions => intro _; rfl
    | step s2 => cases s2 <;> decide
  | step s1 =>
    cases c2 with
    | noActions => cases s1 <;> decide
    | step s2 => cases s1 <;> cases s2 <;> decide

/-- The decoder call that fails first in the run is a step that fails taken on its own,
and no check before it in the order raises an error. -/
theorem failedStep_earliest (P : Library) (d : Bytes) (step : DecodeStep) (err : DecodeError)
    (h : failedStep P d = some (step, err)) :
    stepFailure P d step = some err ∧
    ∀ c, c.index < (Check.step step).index → checkError P d c = none := by
  simp only [failedStep] at h
  repeat' split at h
  all_goals first
    | (simp only [Option.some.injEq, Prod.mk.injEq] at h
       obtain ⟨rfl, rfl⟩ := h
       refine ⟨by simp [*, stepFailure, envelopeOf, payloadOf, headerOf, signHeaderOf,
         transactionOf, firstActionOf, payloadsOf, proposalPayloadOf, okOf, errOf,
         List.head?_eq_getElem?], ?_⟩
       intro c hc
       cases c with
       | noActions =>
         first
         | (simp [Check.index] at hc; done)
         | simp [*, checkError, transactionOf, payloadOf, envelopeOf, okOf]
       | step s =>
         cases s <;> first
         | (simp [Check.index] at hc; done)
         | simp [*, checkError, stepFailure, envelopeOf, payloadOf, headerOf, signHeaderOf,
             transactionOf, firstActionOf, payloadsOf, proposalPayloadOf, okOf, errOf,
             List.head?_eq_getElem?])
    | simp at h

/-- An element whose transaction has no action fails the test of line 83, and no check
before that test raises an error. -/
theorem zeroActions_earliest (P : Library) (d : Bytes) (h : zeroActions P d) :
    checkError P d .noActions = some errNoActions ∧
    ∀ c, c.index < Check.noActions.index → checkError P d c = none := by
  obtain ⟨envelope, payload, header, signHeader, identity, channelHeader, transaction,
    h1, h2, h3, h4, h5, h6, h7, h8⟩ := h
  refine ⟨by simp [checkError, transactionOf, payloadOf, envelopeOf, okOf, h1, h2, h7, h8], ?_⟩
  intro c hc
  cases c with
  | noActions => simp [Check.index] at hc
  | step s =>
    cases s <;> first
    | (simp [Check.index] at hc; done)
    | simp [checkError, stepFailure, envelopeOf, payloadOf, headerOf, signHeaderOf,
        transactionOf, okOf, errOf, h1, h2, h3, h4, h5, h6, h7]

/-- An element that passes the decode steps raises no error at any check. -/
theorem decodeSteps_next_checks (P : Library) (d : Bytes) (v : Decoded)
    (h : decodeSteps P d = .next v) : ∀ c, checkError P d c = none := by
  obtain ⟨-, envelope, header, signHeader, transaction, action0, rest, cpa,
    h1, h2, h3, h4, h5, h6, h7, h8, h9, h10, h11, h12⟩ := decodeSteps_next P d v h
  intro c
  cases c with
  | noActions =>
    simp [checkError, transactionOf, payloadOf, envelopeOf, okOf, h1, h2, h7, Slice.len, h8]
  | step s =>
    cases s <;>
      simp [checkError, stepFailure, envelopeOf, payloadOf, headerOf, signHeaderOf,
        transactionOf, firstActionOf, payloadsOf, proposalPayloadOf, okOf, errOf,
        h1, h2, h3, h4, h5, h6, h7, h8, h9, h10, h11, h12]

/-- The error of an element is the error of its earliest failing check. -/
theorem decodeSteps_exit_earliest (P : Library) (d : Bytes) (e : GoError)
    (h : decodeSteps P d = .exit e) :
    ∃ c, checkError P d c = some e ∧ ∀ c2, c2.index < c.index → checkError P d c2 = none := by
  rcases decodeSteps_exit P d e h with ⟨step, err, hf⟩ | ⟨hz, he⟩
  · have h2 := decodeSteps_of_failedStep P d step err hf
    rw [h] at h2
    simp only [Step.exit.injEq] at h2
    obtain ⟨h3, h4⟩ := failedStep_earliest P d step err hf
    refine ⟨.step step, ?_, h4⟩
    simp only [checkError, h3, Option.map_some', DecodeStep.wrap, h2]
  · obtain ⟨h3, h4⟩ := zeroActions_earliest P d hz
    exact ⟨.noActions, by rw [h3, he], h4⟩

/-- An element whose earliest failing check raises `e`, and whose decoded payload has a
header, gives the error `e`. -/
theorem decodeSteps_of_earliest (P : Library) (d : Bytes) (c : Check) (e : GoError)
    (hc : checkError P d c = some e)
    (hEarliest : ∀ c2, c2.index < c.index → checkError P d c2 = none)
    (hHeader : ∀ p, payloadOf P d = some p → p.Header ≠ none) :
    decodeSteps P d = .exit e := by
  cases hd : decodeSteps P d with
  | fault =>
    obtain ⟨p, hp, hnone⟩ := decodeSteps_fault P d hd
    exact absurd hnone (hHeader p hp)
  | next v =>
    rw [decodeSteps_next_checks P d v hd c] at hc
    cases hc
  | exit e2 =>
    obtain ⟨c2, hc2, hE2⟩ := decodeSteps_exit_earliest P d e2 hd
    have hidx : c.index = c2.index := by
      rcases Nat.lt_trichotomy c.index c2.index with hlt | heq | hgt
      · rw [hE2 c hlt] at hc; cases hc
      · exact heq
      · rw [hEarliest c2 hgt] at hc2; cases hc2
    have hcc := Check.index_injective c c2 hidx
    subst hcc
    rw [hc] at hc2
    cases hc2
    rfl

/-- A loop that stops with an error stopped at the first element that gives no `Tx`. -/
theorem loop_exit_inv (P : Library) (block : Block) :
    ∀ (ds : List Bytes) (i : Nat) (txList : Slice Tx) (e : GoError),
      loop P block i ds txList = .exit e →
      ∃ k d, ds[k]? = some d ∧
        (∀ j dj, j < k → ds[j]? = some dj → ∃ tx, loopBody P block (i + j) dj = .next tx) ∧
        loopBody P block (i + k) d = .exit e := by
  intro ds
  induction ds with
  | nil => intro i txList e h; simp [loop] at h
  | cons d0 rest ih =>
    intro i txList e h
    simp only [loop] at h
    cases hb : loopBody P block i d0 with
    | fault => rw [hb] at h; simp at h
    | exit e0 =>
      rw [hb] at h
      simp only [Step.exit.injEq] at h
      subst h
      exact ⟨0, d0, by simp, by intro j dj hj; omega, by simpa using hb⟩
    | next tx =>
      rw [hb] at h
      obtain ⟨k, d, hk, hbefore, hfail⟩ := ih (i + 1) _ e h
      refine ⟨k + 1, d, by simpa using hk, ?_, ?_⟩
      · intro j dj hj hdj
        cases j with
        | zero =>
          simp only [List.getElem?_cons_zero, Option.some.injEq] at hdj
          subst hdj
          exact ⟨tx, by simpa using hb⟩
        | succ j =>
          have := hbefore j dj (by omega) (by simpa using hdj)
          have e1 : i + (j + 1) = i + 1 + j := by omega
          rw [e1]
          exact this
      · have e1 : i + (k + 1) = i + 1 + k := by omega
        rw [e1]
        exact hfail

/-- Building the `Tx` never returns an error. -/
theorem buildTx_ne_exit (P : Library) (block : Block) (i : Nat) (v : Decoded) (e : GoError) :
    buildTx P block i v ≠ .exit e := by
  intro h
  simp only [buildTx] at h
  repeat' split at h
  all_goals cases h

/-- C13: for every block with height > 0, an error `ParseSampleBlock` returns comes with no
summary and is the error of the lowest-index failing element (no check fails on an
element before it), and within that element the error of the earliest failing check in
the order envelope, payload, signature header, serialized identity, channel header,
transaction, zero-actions check, action payloads, chaincode event, chaincode proposal
payload, chaincode invocation spec. And when the elements before the lowest-index failing
one are appended and its decoded payload has a header, that error is returned, whatever
checks fail later in the element and whatever elements come after it: nothing after the
failure is decoded. -/
theorem ParseSampleBlock_first_failure (P : Library) (block : Block) (header : BlockHeader)
    (data : BlockData)
    (hHeader : block.Header = some header) (hNumber : 0 < header.Number)
    (hData : block.Data = some data) :
    (∀ (resp : Option SampleBlock) (e : GoError),
      ParseSampleBlock P block = .returns resp (some e) →
      resp = none ∧
      ∃ (k : Nat) (d : Bytes) (c : Check), data.Data.toList[k]? = some d ∧
        (∀ (j : Nat) (dj : Bytes), j < k → data.Data.toList[j]? = some dj →
          ∀ c2, checkError P dj c2 = none) ∧
        checkError P d c = some e ∧
        ∀ c2, c2.index < c.index → checkError P d c2 = none) ∧
    (∀ (k : Nat) (d : Bytes) (c : Check) (e : GoError),
      data.Data.toList[k]? = some d →
      (∀ (j : Nat) (dj : Bytes), j < k → data.Data.toList[j]? = some dj →
        ∃ tx, loopBody P block j dj = .next tx) →
      checkError P d c = some e →
      (∀ c2, c2.index < c.index → checkError P d c2 = none) →
      (∀ p, payloadOf P d = some p → p.Header ≠ none) →
      ParseSampleBlock P block = .returns none (some e) ∧
      ∀ later : List Bytes,
        ParseSampleBlock P
          { block with Data := some { Data := .mk (data.Data.toList.take (k + 1) ++ later) } } =
          .returns none (some e)) := by
  constructor
  · intro resp e h
    rw [ParseSampleBlock_pos P block header data hHeader hNumber hData] at h
    cases hl : loop P block 0 data.Data.toList (.mk []) with
    | fault => rw [hl] at h; simp at h
    | next txList => rw [hl] at h; simp at h
    | exit e2 =>
      rw [hl] at h
      simp only [Outcome.returns.injEq, Option.some.injEq] at h
      obtain ⟨hresp, he⟩ := h
      subst he
      obtain ⟨k, d, hk, hbefore, hfail⟩ := loop_exit_inv P block data.Data.toList 0 _ e2 hl
      refine ⟨hresp.symm, k, d, ?_⟩
      have hdec : decodeSteps P d = .exit e2 := by
        cases hd : decodeSteps P d with
        | next v =>
          simp only [loopBody, hd] at hfail
          exact absurd hfail (buildTx_ne_exit P block _ v e2)
        | exit e3 => simp only [loopBody, hd, Step.exit.injEq] at hfail; rw [hfail]
        | fault => simp only [loopBody, hd] at hfail; cases hfail
      obtain ⟨c, hc, hE⟩ := decodeSteps_exit_earliest P d e2 hdec
      refine ⟨c, hk, ?_, hc, hE⟩
      intro j dj hj hdj
      obtain ⟨tx, htx⟩ := hbefore j dj hj hdj
      obtain ⟨v, hv, -⟩ := loopBody_next P block _ dj tx htx
      exact decodeSteps_next_checks P dj v hv
  · intro k d c e hk hbefore hc hE hHdr
    have hdec := decodeSteps_of_earliest P d c e hc hE hHdr
    have hbody : ∀ (b : Block) (i : Nat), loopBody P b i d = .exit e := by
      intro b i
      simp only [loopBody, hdec]
    constructor
    · have hloop := loop_exit P block data.Data.toList 0 [] k d e hk
        (by simpa using hbefore) (hbody block _)
      rw [ParseSampleBlock_pos P block header data hHeader hNumber hData, hloop]
    · intro later
      have hklt : k < data.Data.toList.length := (List.getElem?_eq_some_iff.mp hk).1
      have hpre : ∀ j, j ≤ k →
          (data.Data.toList.take (k + 1) ++ later)[j]? = data.Data.toList[j]? := by
        intro j hj
        rw [List.getElem?_append_left (by simp; omega), List.getElem?_take_of_lt (by omega)]
      have hloop := loop_exit P
        { block with Data := some { Data := .mk (data.Data.toList.take (k + 1) ++ later) } }
        (data.Data.toList.take (k + 1) ++ later) 0 [] k d e
        (by rw [hpre k (le_refl k)]; exact hk)
        (by
          intro j dj hj hdj
          rw [hpre j (by omega)] at hdj
          obtain ⟨tx, htx⟩ := hbefore j dj hj hdj
          exact ⟨tx, by simpa using htx⟩)
        (hbody _ _)
      rw [ParseSampleBlock_pos P
        { block with Data := some { Data := .mk (data.Data.toList.take (k + 1) ++ later) } } header
        { Data := .mk (data.Data.toList.take (k + 1) ++ later) } hHeader hNumber rfl]
      simp only [Slice.toList_mk, hloop]

/-- A block of height 4 with three elements: the first decodes; on the second both the
channel header and the transaction fail to decode; the third has a payload that does not
decode. The error returned is the one of the channel-header step of the second element. -/
theorem ParseSampleBlock_first_failure_witness :
    checkError sampleLibrary (.mk [251, 255]) (.step .transaction) =
      some (.decoder ⟨"bad transaction"⟩) ∧
    checkError sampleLibrary (.mk [255]) (.step .payload) =
      some (.errorf "UnmarshalPayload" (.decoder ⟨"bad payload"⟩)) ∧
    ParseSampleBlock sampleLibrary
        (sampleBlock 4 [[7, 1], [251, 255], [255]] (sampleMetadata [0, 0, 0])) =
      .returns none (some (.errorf "UnmarshalChannelHeader" (.decoder ⟨"bad channel header"⟩))) :=
  ⟨by decide, by decide,
    ((ParseSampleBlock_first_failure sampleLibrary
      (sampleBlock 4 [[7, 1], [251, 255], [255]] (sampleMetadata [0, 0, 0]))
      { Number := 4, PreviousHash := .mk [0, 171], DataHash := .mk [255, 16] }
      { Data := .mk [.mk [7, 1], .mk [251, 255], .mk [255]] } rfl (by decide) rfl).2
      1 (.mk [251, 255]) (.step .channelHeader)
      (.errorf "UnmarshalChannelHeader" (.decoder ⟨"bad channel header"⟩)) rfl
      (by
        intro j dj hj hget
        have hj0 : j = 0 := by omega
        subst hj0
        simp only [Slice.toList_mk, List.getElem?_cons_zero, Option.some.injEq] at hget
        subst hget
        exact ⟨_, rfl⟩)
      (by decide)
      (by
        intro c2 h
        cases c2 with
        | noActions => simp [Check.index] at h
        | step s =>
          cases s <;> first
          | (simp [Check.index] at h; done)
          | decide)
      (by
        intro p hp
        have : payloadOf sampleLibrary (.mk [251, 255]) =
            some { Header := some { ChannelHeader := .mk [251], SignatureHeader := .mk [251] },
                   Data := .mk [255] } := by decide
        rw [this] at hp
        cases hp
        simp)).1⟩

end FabricBlock
